import Mathlib

/-! Conway's Game of Life on a fixed toroidal grid: a shallow embedding of
`game_of_life.cpp`.

* The two buffers `data` and `next` of `GameOfLife<H, W>` have type
  `std::array<std::array<bool, W>, H>`; an array of that type is a function
  `Fin H → Fin W → Bool`.
* `int32_t` values are integers, `uint32_t` values are naturals; conversions
  between the two and unsigned wrap-around are written out with `% 2^32`.
  (`int` is taken to be 32 bits wide, as on every platform the program
  targets.)
* An operation whose behaviour the language leaves undefined (an array
  subscript outside the array, signed overflow, `% 0`) yields `none`.
-/

set_option autoImplicit false

/-! ## Machine integers -/

/-- Largest `int32_t`. -/
def INT32_MAX : Int := 2147483647

/-- Smallest `int32_t`. -/
def INT32_MIN : Int := -2147483648

/-- Number of `uint32_t` values, `2^32`. -/
def UINT32_MODULUS : Nat := 4294967296

/-- Result of a signed 32-bit computation whose mathematical value is `x`:
the value itself when it is representable, no result on overflow. -/
def checkedInt32 (x : Int) : Option Int :=
  if INT32_MIN ≤ x ∧ x ≤ INT32_MAX then some x else none

/-- Conversion `int32_t → uint32_t` (reduction modulo `2^32`). -/
def toUInt32 (x : Int) : Nat := (x % 4294967296).toNat

/-- Conversion `uint32_t → int32_t` (two's complement). -/
def toInt32 (x : Nat) : Int :=
  if x % 4294967296 < 2147483648 then ((x % 4294967296 : Nat) : Int)
  else ((x % 4294967296 : Nat) : Int) - 4294967296

/-- The loop `for (int32_t i = 0; i < bound; ++i) body(i)` with a `uint32_t`
bound, threading a state. The comparison is unsigned, so the counter walks
`0, 1, …, bound - 1` and the loop ends when the counter reaches `bound`; that
needs `bound ≤ INT32_MAX`, otherwise `++i` overflows at `INT32_MAX`. -/
def forInt32 {σ : Type} (bound : Nat) (body : Int → σ → Option σ) (init : σ) : Option σ :=
  if (bound : Int) ≤ INT32_MAX then
    (List.range bound).foldlM (fun (s : σ) (i : Nat) => body (i : Int) s) init
  else none

/-! ## Grids -/

/-- A buffer `std::array<std::array<bool, W>, H>`. -/
abbrev Grid (H W : Nat) : Type := Fin H → Fin W → Bool

namespace Grid

variable {H W : Nat}

/-- Whether the subscripts `[r][c]` lie inside the array. -/
def inRange (H W : Nat) (r c : Int) : Prop := (0 ≤ r ∧ r < H) ∧ (0 ≤ c ∧ c < W)

instance (H W : Nat) (r c : Int) : Decidable (inRange H W r c) := by
  unfold inRange; infer_instance

/-- The read `g[r][c]` with `int32_t` subscripts. -/
def get? (g : Grid H W) (r c : Int) : Option Bool :=
  if h : inRange H W r c then
    some (g ⟨r.toNat, by unfold inRange at h; omega⟩ ⟨c.toNat, by unfold inRange at h; omega⟩)
  else none

/-- The write `g[r][c] = v` with `int32_t` subscripts. -/
def set? (g : Grid H W) (r c : Int) (v : Bool) : Option (Grid H W) :=
  if inRange H W r c then
    some (fun i j => if (i.val : Int) = r ∧ (j.val : Int) = c then v else g i j)
  else none

/-- The loop `for (auto& line : g) line.fill(false)`. -/
def fillFalse (_g : Grid H W) : Grid H W := fun _ _ => false

end Grid

/-! ## The engine -/

/-- The data members of `GameOfLife<H, W>`. -/
structure GameOfLife (H W : Nat) where
  data : Grid H W
  next : Grid H W

/-- A seed pattern, `std::vector<std::pair<int32_t, int32_t>>`. -/
abbrev CellGroup : Type := List (Int × Int)

namespace GameOfLife

variable {H W : Nat}

/-- Method `clear_data()`. -/
def clear_data (s : GameOfLife H W) : GameOfLife H W :=
  { s with data := s.data.fillFalse }

/-- Method `clear_next()`. -/
def clear_next (s : GameOfLife H W) : GameOfLife H W :=
  { s with next := s.next.fillFalse }

/-- The expression `(i + d + n) % n` assigned to an `int32_t`, for `int32_t`
operands `i`, `d` and a `uint32_t` dimension `n`: `i + d` is a signed sum, it is
converted to unsigned to be added to `n` (modulo `2^32`), the remainder is
unsigned and is converted back on assignment. -/
def wrapIndex (n : Nat) (i d : Int) : Option Int := do
  let t ← checkedInt32 (i + d)
  if n = 0 then none
  else some (toInt32 (((toUInt32 t + n) % UINT32_MODULUS) % n))

/-- Method `count_neighbors(r, c)`: the two loops over `dr` and `dc`, skipping
`(0, 0)`, incrementing `num` for every live wrapped neighbour. -/
def count_neighbors (s : GameOfLife H W) (r c : Int) : Option Nat :=
  ([-1, 0, 1] : List Int).foldlM (fun num dr =>
    ([-1, 0, 1] : List Int).foldlM (fun num dc =>
      if dr = 0 ∧ dc = 0 then some num
      else do
        let rr ← wrapIndex H r dr
        let cc ← wrapIndex W c dc
        let alive ← s.data.get? rr cc
        some (if alive then num + 1 else num)) num) 0

/-- Body of the inner loop of `update()`: the assignment to `next[r][c]`. -/
def update_cell (r c : Int) (s : GameOfLife H W) : Option (GameOfLife H W) := do
  let neighbors ← s.count_neighbors r c
  let alive ← s.data.get? r c
  let nx ← s.next.set? r c (if alive then (neighbors == 2 || neighbors == 3) else neighbors == 3)
  some { s with next := nx }

/-- Method `update()`: the two loops over the cells, then `std::swap(data, next)`
and `clear_next()`. -/
def update (s : GameOfLife H W) : Option (GameOfLife H W) := do
  let s1 ← forInt32 H (fun r s => forInt32 W (fun c s => update_cell r c s) s) s
  let s2 : GameOfLife H W := { data := s1.next, next := s1.data }
  some s2.clear_next

/-- Method `clear()`. -/
def clear (s : GameOfLife H W) : GameOfLife H W :=
  s.clear_data.clear_next

/-- The constructor: the members start with indeterminate contents `uninit`
and the body calls `clear()`. -/
def construct (uninit : GameOfLife H W) : GameOfLife H W :=
  uninit.clear

/-- Method `set_cell(r, c, alive)`: the assignment `data[r][c] = alive`. -/
def set_cell (s : GameOfLife H W) (r c : Int) (alive : Bool) : Option (GameOfLife H W) := do
  let d ← s.data.set? r c alive
  some { s with data := d }

/-- Method `set_cell_group(group, alive)`: `set_cell` on every entry, in order. -/
def set_cell_group (s : GameOfLife H W) (group : CellGroup) (alive : Bool) :
    Option (GameOfLife H W) :=
  group.foldlM (fun s cellPos => s.set_cell cellPos.1 cellPos.2 alive) s

/-- The buffers after `n` passes through the body of the loop of `run()`;
`clear_screen`, `render` and the sleep leave the buffers alone, `update`
changes them. -/
def run_cycles : Nat → GameOfLife H W → Option (GameOfLife H W)
  | 0, s => some s
  | n + 1, s => s.update.bind (run_cycles n)

end GameOfLife

/-! ## Reference notions used by the specification -/

namespace Grid

variable {H W : Nat}

/-- The cell at row `r mod H`, column `c mod W` of the torus. -/
def torus (g : Grid H W) (r c : Int) : Bool :=
  if h : 0 < H ∧ 0 < W then
    g ⟨(r % H).toNat, by
        have := Int.emod_nonneg r (show (H : Int) ≠ 0 by omega)
        have := Int.emod_lt_of_pos r (show (0 : Int) < H by omega)
        omega⟩
      ⟨(c % W).toNat, by
        have := Int.emod_nonneg c (show (W : Int) ≠ 0 by omega)
        have := Int.emod_lt_of_pos c (show (0 : Int) < W by omega)
        omega⟩
  else false

/-- The eight offsets `(dr, dc)` of `{-1,0,1} × {-1,0,1}` other than `(0,0)`. -/
def offsets : List (Int × Int) :=
  [(-1, -1), (-1, 0), (-1, 1), (0, -1), (0, 1), (1, -1), (1, 0), (1, 1)]

/-- Number of offsets whose toroidal neighbour of `(r, c)` is alive. -/
def liveNeighbors (g : Grid H W) (r c : Int) : Nat :=
  (offsets.filter (fun d => g.torus (r + d.1) (c + d.2))).length

/-- The transition rule of the Game of Life. -/
def rule (alive : Bool) (n : Nat) : Bool :=
  if alive then (n == 2 || n == 3) else n == 3

end Grid

/-! ## Invariant and concrete inputs -/

/-- Every cell of the next buffer is dead. -/
def GameOfLife.NextDead {H W : Nat} (s : GameOfLife H W) : Prop :=
  ∀ i j, s.next i j = false

/-- The state whose current buffer has exactly the cells of `cells` alive and
whose next buffer is dead. -/
def GameOfLife.seeded (H W : Nat) (cells : List (Nat × Nat)) : GameOfLife H W :=
  ⟨fun i j => decide ((i.val, j.val) ∈ cells), fun _ _ => false⟩

/-- A grid of `2^31` rows and one column, every cell alive. -/
def tallAlive : GameOfLife 2147483648 1 := ⟨fun _ _ => true, fun _ _ => false⟩

/-- A grid of `2^31` rows and one column, every cell dead. -/
def tallDead : GameOfLife 2147483648 1 := ⟨fun _ _ => false, fun _ _ => false⟩

/-- A grid of one row and `2^31` columns, every cell dead. -/
def wideDead : GameOfLife 1 2147483648 := ⟨fun _ _ => false, fun _ _ => false⟩

/-- A grid of `2^31 + 5` rows and one column whose only live cell is in row
`2^31 - 5`. -/
def tallRow : GameOfLife 2147483653 1 :=
  ⟨fun i _ => decide (i.val = 2147483643), fun _ _ => false⟩

/-! ## Rendering -/

/-- The loop `for (uint32_t i = 0; i < bound; ++i) body(i)` with a `uint32_t`
bound, threading a state: the counter walks `0, 1, …, bound - 1` and then holds
`bound` itself, which is a `uint32_t`. -/
def forUInt32 {σ : Type} (bound : Nat) (body : Nat → σ → Option σ) (init : σ) : Option σ :=
  (List.range bound).foldlM (fun (s : σ) (i : Nat) => body i s) init

namespace GameOfLife

variable {H W : Nat}

/-- The constant `EMPTY`. -/
def EMPTY : Char := ' '

/-- The constant `ALIVE`. -/
def ALIVE : Char := '*'

/-- Body of the inner loop of `render()`: the character of the cell `(r, c)` is
written. -/
def render_cell (s : GameOfLife H W) (r c : Nat) (out : List Char) : Option (List Char) := do
  let alive ← s.data.get? (r : Int) (c : Int)
  some (out ++ [if alive then ALIVE else EMPTY])

/-- Body of the outer loop of `render()`: the row `r` is written between two
bars, followed by a newline. -/
def render_line (s : GameOfLife H W) (r : Nat) (out : List Char) : Option (List Char) := do
  let out := out ++ ['|']
  let out ← forUInt32 W (fun c out => s.render_cell r c out) out
  some (out ++ ['|', '\n'])

/-- Method `render()`: `cout` is the text written to `std::cout` so far, the
result is that text with the frame appended, and the engine afterwards. -/
def render (s : GameOfLife H W) (cout : List Char) : Option (List Char × GameOfLife H W) := do
  let out := cout ++ ['x']
  let out ← forUInt32 W (fun _ out => some (out ++ ['-'])) out
  let out := out ++ ['x', '\n']
  let out ← forUInt32 H (fun r out => s.render_line r out) out
  let out := out ++ ['x']
  let out ← forUInt32 W (fun _ out => some (out ++ ['-'])) out
  some (out ++ ['x', '\n'], s)

end GameOfLife

/-! ## The pattern loader -/

/-- The two exception classes the program throws. -/
inductive ExceptionKind where
  | invalid_argument
  | runtime_error
  deriving DecidableEq

/-- A thrown `std::exception`: its class and its `what()` message. -/
structure Exception where
  kind : ExceptionKind
  what : String
  deriving DecidableEq

/-- The files the program can open: the characters of the file at a path, or
nothing when the file cannot be opened. -/
abbrev FileSystem : Type := String → Option (List Char)

/-- The function `std::isspace` in the "C" locale. -/
def isspace (c : Char) : Bool :=
  c = ' ' || c = '\t' || c = '\n' || c = Char.ofNat 11 || c = Char.ofNat 12 || c = '\r'

/-- The extraction `stream >> v` into a `uint32_t`, on the unread characters of
the stream: leading white space is skipped, an optional sign and the decimal
digits that follow are consumed; the extraction fails (no result) when there is
no digit or the digits exceed `4294967295`; a leading `-` negates the value
modulo `2^32`. The result is the value and the characters left unread. -/
def extractUInt32 (input : List Char) : Option (Nat × List Char) :=
  let s := input.dropWhile isspace
  let negative := s.head? = some '-'
  let s := if s.head? = some '-' ∨ s.head? = some '+' then s.tail else s
  let digits := s.takeWhile Char.isDigit
  let value := digits.foldl (fun acc d => 10 * acc + (d.toNat - 48)) 0
  if digits = [] then none
  else if 4294967295 < value then none
  else some (if negative then (4294967296 - value) % 4294967296 else value,
    s.dropWhile Char.isDigit)

/-- The statement `iss >> row >> col` followed by the test `!iss`: the two
values when both extractions succeed. -/
def parseRowCol (line : List Char) : Option (Nat × Nat) := do
  let (row, rest) ← extractUInt32 line
  let (col, _) ← extractUInt32 rest
  some (row, col)

/-- Lines read from the rest of a file after the characters `cur` (in reverse)
of the line in progress. -/
def fileLinesFrom (cur : List Char) : List Char → List (List Char)
  | [] => if cur = [] then [] else [cur.reverse]
  | ch :: rest =>
    if ch = '\n' then cur.reverse :: fileLinesFrom [] rest
    else fileLinesFrom (ch :: cur) rest

/-- The successive values of `line` in `while (std::getline(in, line))`: the
file is cut at each newline, and a last line without a newline counts when it has
at least one character. -/
def fileLines (content : List Char) : List (List Char) :=
  fileLinesFrom [] content

/-- Body of the loop of `build_cell_group_from_file<H, W>` for one line. -/
def loadLine (H W : Nat) (path : String) (group : CellGroup) (line : List Char) :
    Except Exception CellGroup :=
  if line = [] then Except.ok group
  else
    match parseRowCol line with
    | none =>
      Except.error ⟨ExceptionKind.runtime_error,
        "build_cell_group_from_file: file read failed: " ++ path⟩
    | some (row, col) =>
      if H ≤ row then
        Except.error ⟨ExceptionKind.runtime_error,
          "build_cell_group_from_file: row number should be less than: " ++ toString H⟩
      else if W ≤ col then
        Except.error ⟨ExceptionKind.runtime_error,
          "build_cell_group_from_file: column number should be less than: " ++ toString W⟩
      else Except.ok (group ++ [(toInt32 row, toInt32 col)])

/-- The function `build_cell_group_from_file<H, W>(path)`. The pair stored by
`group.emplace_back(row, col)` holds the two `uint32_t` values converted to
`int32_t`. -/
def build_cell_group_from_file (H W : Nat) (fs : FileSystem) (path : String) :
    Except Exception CellGroup :=
  match fs path with
  | none =>
    Except.error ⟨ExceptionKind.invalid_argument,
      "build_cell_group_from_file: cannot open file: " ++ path⟩
  | some content => (fileLines content).foldlM (loadLine H W path) []

/-! ## The entry point -/

/-- How a call of `main` ends: it returns a status, having written `cerr` to the
error stream, with the engine it had constructed if any; or it is inside
`run()`, which has no exit, with the engine as seeded. -/
inductive MainOutcome where
  | returned (status : Int) (cerr : String) (gol : Option (GameOfLife 20 40))
  | running (cerr : String) (gol : GameOfLife 20 40)

/-- The function `main(argc, argv)`: `argv0` is the program name `argv[0]`,
`args` are the arguments after it, so `argc` is `args.length + 1`; `uninit` is
the storage the engine is constructed in. -/
def Cli.main (fs : FileSystem) (uninit : GameOfLife 20 40) (argv0 : String) (args : List String) :
    Option MainOutcome :=
  let argc : Int := (args.length : Int) + 1
  if argc ≠ 2 then
    some (MainOutcome.returned 1 ("game_of_life usage: " ++ argv0 ++ " <file_path>\n") none)
  else
    match args.head? with
    | none => none
    | some path =>
      let gol := uninit.construct
      match build_cell_group_from_file 20 40 fs path with
      | Except.error e =>
        some (MainOutcome.returned 0 ("error, " ++ e.what ++ "\n") (some gol))
      | Except.ok group =>
        match gol.set_cell_group group true with
        | none => none
        | some seeded => some (MainOutcome.running "" seeded)

/-! ## Reference notions for frames, neighbourhoods and translations -/

/-- A border row of the frame: `x`, then `W` dashes, then `x`. -/
def borderRow (W : Nat) : List Char := 'x' :: (List.replicate W '-' ++ ['x'])

/-- A body row of the frame: `|`, then one character per cell of row `r`, `*`
for a live cell and a space for a dead one, then `|`. -/
def bodyRow {H W : Nat} (g : Grid H W) (r : Fin H) : List Char :=
  '|' :: (List.ofFn (fun c : Fin W => if g r c then '*' else ' ') ++ ['|'])

/-- The lines of the frame of a grid: a border row, the `H` body rows, a border
row. -/
def frameLines {H W : Nat} (g : Grid H W) : List (List Char) :=
  borderRow W :: (List.ofFn (fun r : Fin H => bodyRow g r) ++ [borderRow W])

/-- The text made of the given lines, each followed by a newline. -/
def newlineTerminated (lines : List (List Char)) : List Char :=
  (lines.map (fun l => l ++ ['\n'])).flatten

/-- A body row of `W` spaces between two bars. -/
def blankRow (W : Nat) : List Char := '|' :: (List.replicate W ' ' ++ ['|'])

namespace GameOfLife

variable {H W : Nat}

/-- The coordinates `(rr, cc)` that `count_neighbors(r, c)` computes, in the
order of its two loops. -/
def visited (H W : Nat) (r c : Int) : Option (List (Int × Int)) :=
  ([-1, 0, 1] : List Int).foldlM (fun acc dr =>
    ([-1, 0, 1] : List Int).foldlM (fun acc dc =>
      if dr = 0 ∧ dc = 0 then some acc
      else do
        let rr ← wrapIndex H r dr
        let cc ← wrapIndex W c dc
        some (acc ++ [(rr, cc)])) acc) []

end GameOfLife

namespace Grid

variable {H W : Nat}

/-- The coordinates on the torus of the cell at offset `d` from `(r, c)`. -/
def torusCoord (H W : Nat) (r c : Int) (d : Int × Int) : Int × Int :=
  ((r + d.1) % (H : Int), (c + d.2) % (W : Int))

/-- Number of distinct live cells adjacent to `(r, c)` on the torus: the cells
reached by the eight offsets, each taken once, the cell `(r, c)` itself left
out. -/
def adjacentLive (g : Grid H W) (r c : Int) : Nat :=
  (((offsets.map (torusCoord H W r c)).dedup).filter
    (fun p => decide (p ≠ (r, c)) && g.torus p.1 p.2)).length

/-- The grid `g` translated by `(a, b)`: its cell `(r, c)` is the cell
`((r + a) mod H, (c + b) mod W)` of `g`. -/
def shift (a b : Int) (g : Grid H W) : Grid H W :=
  fun r c => g.torus ((r.val : Int) + a) ((c.val : Int) + b)

end Grid

/-! ## More concrete inputs -/

/-- A file system with one file, `pattern.txt`, holding `content`. -/
def oneFile (content : String) : FileSystem :=
  fun path => if path = "pattern.txt" then some content.toList else none

/-! ## Machine arithmetic of the wrapped index -/

theorem wrapIndex_eq (n k : Nat) (d : Int) (hn : (n : Int) ≤ INT32_MAX) (hk : k < n)
    (hd : d = -1 ∨ d = 0 ∨ d = 1) :
    GameOfLife.wrapIndex n (k : Int) d = some (((k : Int) + d) % (n : Int)) := by
  have hn0 : n ≠ 0 := by omega
  unfold INT32_MAX at hn
  have hc : checkedInt32 ((k : Int) + d) = some ((k : Int) + d) := by
    unfold checkedInt32 INT32_MIN INT32_MAX
    rw [if_pos]; omega
  simp only [GameOfLife.wrapIndex, hc, Option.bind_eq_bind, Option.some_bind, if_neg hn0,
    Option.some.injEq, UINT32_MODULUS]
  by_cases h1 : (k : Int) + d = -1
  · have e1 : toUInt32 ((k : Int) + d) = 4294967295 := by rw [h1]; rfl
    have e2 : (4294967295 + n) % 4294967296 = n - 1 := by omega
    have e3 : (n - 1) % n = n - 1 := Nat.mod_eq_of_lt (by omega)
    have e4 : ((k : Int) + d) % (n : Int) = ((n - 1 : Nat) : Int) := by
      rw [h1, ← Int.add_emod_self]
      rw [Int.emod_eq_of_lt (by omega) (by omega)]
      omega
    rw [e1, e2, e3, e4]
    unfold toInt32
    rw [if_pos (by omega)]
    congr 1
    omega
  · by_cases h2 : (k : Int) + d = n
    · have e1 : toUInt32 ((k : Int) + d) = n := by
        rw [h2]; unfold toUInt32; omega
      have e2 : (n + n) % 4294967296 = n + n := by omega
      have e3 : (n + n) % n = 0 := by simp
      have e4 : ((k : Int) + d) % (n : Int) = 0 := by
        rw [h2]; simp
      rw [e1, e2, e3, e4]
      rfl
    · obtain ⟨m, hm⟩ : ∃ m : Nat, (k : Int) + d = m := ⟨((k : Int) + d).toNat, by omega⟩
      have hmn : m < n := by omega
      have e1 : toUInt32 ((k : Int) + d) = m := by
        rw [hm]; unfold toUInt32; omega
      have e2 : (m + n) % 4294967296 = m + n := by omega
      have e3 : (m + n) % n = m := by
        rw [Nat.add_mod_right]; exact Nat.mod_eq_of_lt hmn
      have e4 : ((k : Int) + d) % (n : Int) = m := by
        rw [hm]; exact Int.emod_eq_of_lt (by omega) (by omega)
      rw [e1, e2, e3, e4]
      unfold toInt32
      rw [if_pos (by omega)]
      congr 1
      omega

/-! ## Reads and writes inside the array -/

theorem Grid.get?_fin {H W : Nat} (g : Grid H W) (r : Fin H) (c : Fin W) :
    g.get? (r.val : Int) (c.val : Int) = some (g r c) := by
  have h : Grid.inRange H W (r.val : Int) (c.val : Int) := by
    unfold Grid.inRange; omega
  unfold Grid.get?
  rw [dif_pos h]
  rfl

theorem Grid.get?_emod {H W : Nat} (g : Grid H W) (hH : 0 < H) (hW : 0 < W) (r c : Int) :
    g.get? (r % (H : Int)) (c % (W : Int)) = some (g.torus r c) := by
  have h1 := Int.emod_nonneg r (show (H : Int) ≠ 0 by omega)
  have h2 := Int.emod_lt_of_pos r (show (0 : Int) < H by omega)
  have h3 := Int.emod_nonneg c (show (W : Int) ≠ 0 by omega)
  have h4 := Int.emod_lt_of_pos c (show (0 : Int) < W by omega)
  have h : Grid.inRange H W (r % (H : Int)) (c % (W : Int)) := ⟨⟨h1, h2⟩, ⟨h3, h4⟩⟩
  unfold Grid.get? Grid.torus
  rw [dif_pos h, dif_pos ⟨hH, hW⟩]

theorem Grid.torus_fin {H W : Nat} (g : Grid H W) (r : Fin H) (c : Fin W) :
    g.torus (r.val : Int) (c.val : Int) = g r c := by
  have hH : 0 < H := r.pos
  have hW : 0 < W := c.pos
  unfold Grid.torus
  rw [dif_pos ⟨hH, hW⟩]
  congr 1
  · apply Fin.ext
    show ((r.val : Int) % (H : Int)).toNat = r.val
    rw [Int.emod_eq_of_lt (by omega) (by omega)]
    omega
  · apply Fin.ext
    show ((c.val : Int) % (W : Int)).toNat = c.val
    rw [Int.emod_eq_of_lt (by omega) (by omega)]
    omega

/-! ## The neighbour count -/

theorem liveNeighbors_unfold {H W : Nat} (g : Grid H W) (r c : Int) :
    g.liveNeighbors r c =
      (((((((((0 : Nat)
        + (if g.torus (r + -1) (c + -1) then 1 else 0))
        + (if g.torus (r + -1) (c + 0) then 1 else 0))
        + (if g.torus (r + -1) (c + 1) then 1 else 0))
        + (if g.torus (r + 0) (c + -1) then 1 else 0))
        + (if g.torus (r + 0) (c + 1) then 1 else 0))
        + (if g.torus (r + 1) (c + -1) then 1 else 0))
        + (if g.torus (r + 1) (c + 0) then 1 else 0))
        + (if g.torus (r + 1) (c + 1) then 1 else 0)) := by
  unfold Grid.liveNeighbors Grid.offsets
  simp only [List.filter_cons, List.filter_nil]
  generalize g.torus (r + -1) (c + -1) = b1
  generalize g.torus (r + -1) (c + 0) = b2
  generalize g.torus (r + -1) (c + 1) = b3
  generalize g.torus (r + 0) (c + -1) = b4
  generalize g.torus (r + 0) (c + 1) = b5
  generalize g.torus (r + 1) (c + -1) = b6
  generalize g.torus (r + 1) (c + 0) = b7
  generalize g.torus (r + 1) (c + 1) = b8
  cases b1 <;> cases b2 <;> cases b3 <;> cases b4 <;> cases b5 <;> cases b6 <;> cases b7 <;>
    cases b8 <;> simp

theorem count_neighbors_eq {H W : Nat} (s : GameOfLife H W) (hH : (H : Int) ≤ INT32_MAX)
    (hW : (W : Int) ≤ INT32_MAX) (r : Fin H) (c : Fin W) :
    s.count_neighbors (r.val : Int) (c.val : Int)
      = some (s.data.liveNeighbors (r.val : Int) (c.val : Int)) := by
  have hH0 : 0 < H := r.pos
  have hW0 : 0 < W := c.pos
  have wr : ∀ d : Int, d = -1 ∨ d = 0 ∨ d = 1 →
      GameOfLife.wrapIndex H (r.val : Int) d = some (((r.val : Int) + d) % (H : Int)) :=
    fun d hd => wrapIndex_eq H r.val d hH r.isLt hd
  have wc : ∀ d : Int, d = -1 ∨ d = 0 ∨ d = 1 →
      GameOfLife.wrapIndex W (c.val : Int) d = some (((c.val : Int) + d) % (W : Int)) :=
    fun d hd => wrapIndex_eq W c.val d hW c.isLt hd
  rw [liveNeighbors_unfold]
  simp only [GameOfLife.count_neighbors, List.foldlM_cons, List.foldlM_nil,
    wr (-1) (by decide), wr 0 (by decide), wr 1 (by decide),
    wc (-1) (by decide), wc 0 (by decide), wc 1 (by decide),
    Grid.get?_emod _ hH0 hW0, Option.bind_eq_bind, Option.some_bind, Option.pure_def]
  generalize s.data.torus ((r.val : Int) + -1) ((c.val : Int) + -1) = b1
  generalize s.data.torus ((r.val : Int) + -1) ((c.val : Int) + 0) = b2
  generalize s.data.torus ((r.val : Int) + -1) ((c.val : Int) + 1) = b3
  generalize s.data.torus ((r.val : Int) + 0) ((c.val : Int) + -1) = b4
  generalize s.data.torus ((r.val : Int) + 0) ((c.val : Int) + 1) = b5
  generalize s.data.torus ((r.val : Int) + 1) ((c.val : Int) + -1) = b6
  generalize s.data.torus ((r.val : Int) + 1) ((c.val : Int) + 0) = b7
  generalize s.data.torus ((r.val : Int) + 1) ((c.val : Int) + 1) = b8
  cases b1 <;> cases b2 <;> cases b3 <;> cases b4 <;> cases b5 <;> cases b6 <;> cases b7 <;>
    cases b8 <;> rfl

/-! ## The loops of `update()` -/

/-- The grid that `update()` moves into the current buffer. -/
theorem update_cell_eq {H W : Nat} (s : GameOfLife H W) (hH : (H : Int) ≤ INT32_MAX)
    (hW : (W : Int) ≤ INT32_MAX) (r : Fin H) (c : Fin W) :
    GameOfLife.update_cell (r.val : Int) (c.val : Int) s
      = some { data := s.data,
               next := fun i j =>
                 if i = r ∧ j = c then
                   Grid.rule (s.data r c) (s.data.liveNeighbors (r.val : Int) (c.val : Int))
                 else s.next i j } := by
  have h : Grid.inRange H W (r.val : Int) (c.val : Int) := by
    unfold Grid.inRange; omega
  simp only [GameOfLife.update_cell, count_neighbors_eq s hH hW r c, Grid.get?_fin,
    Grid.set?, if_pos h, Option.bind_eq_bind, Option.some_bind, Option.some.injEq,
    GameOfLife.mk.injEq, true_and]
  funext i j
  have e : ((i.val : Int) = (r.val : Int) ∧ (j.val : Int) = (c.val : Int)) ↔ (i = r ∧ j = c) := by
    rw [Fin.ext_iff, Fin.ext_iff]; omega
  simp only [e, Grid.rule]

theorem update_cols_eq {H W : Nat} (hH : (H : Int) ≤ INT32_MAX) (hW : (W : Int) ≤ INT32_MAX)
    (r : Fin H) (l : List Nat) (hl : ∀ k ∈ l, k < W) (s : GameOfLife H W) :
    l.foldlM (fun (s : GameOfLife H W) (k : Nat) => GameOfLife.update_cell (r.val : Int) (k : Int) s) s
      = some { data := s.data,
               next := fun i j =>
                 if i = r ∧ j.val ∈ l then
                   Grid.rule (s.data i j) (s.data.liveNeighbors (i.val : Int) (j.val : Int))
                 else s.next i j } := by
  induction l generalizing s with
  | nil => simp
  | cons k l ih =>
    have hk : k < W := hl k (List.mem_cons_self k l)
    have hl2 : ∀ m ∈ l, m < W := fun m hm => hl m (List.mem_cons_of_mem k hm)
    rw [List.foldlM_cons]
    have e := update_cell_eq s hH hW r ⟨k, hk⟩
    simp only at e
    rw [e]
    simp only [Option.bind_eq_bind, Option.some_bind]
    rw [ih hl2]
    simp only [Option.some.injEq, GameOfLife.mk.injEq, true_and]
    funext i j
    by_cases h1 : i = r
    · subst h1
      by_cases h2 : j.val ∈ l
      · simp [h2]
      · by_cases h3 : j.val = k
        · have h4 : j = ⟨k, hk⟩ := Fin.ext h3
          subst h4
          simp
        · have h4 : j ≠ ⟨k, hk⟩ := fun h => h3 (by rw [h])
          simp [h2, h3, h4]
    · simp [h1]

theorem update_rows_eq {H W : Nat} (hH : (H : Int) ≤ INT32_MAX) (hW : (W : Int) ≤ INT32_MAX)
    (l : List Nat) (hl : ∀ k ∈ l, k < H) (s : GameOfLife H W) :
    l.foldlM (fun (s : GameOfLife H W) (k : Nat) =>
        forInt32 W (fun c s => GameOfLife.update_cell (k : Int) c s) s) s
      = some { data := s.data,
               next := fun i j =>
                 if i.val ∈ l then
                   Grid.rule (s.data i j) (s.data.liveNeighbors (i.val : Int) (j.val : Int))
                 else s.next i j } := by
  induction l generalizing s with
  | nil => simp
  | cons k l ih =>
    have hk : k < H := hl k (List.mem_cons_self k l)
    have hl2 : ∀ m ∈ l, m < H := fun m hm => hl m (List.mem_cons_of_mem k hm)
    rw [List.foldlM_cons]
    have e := update_cols_eq hH hW ⟨k, hk⟩ (List.range W) (fun m hm => List.mem_range.mp hm) s
    simp only at e
    simp only [forInt32, if_pos hW]
    rw [e]
    simp only [Option.bind_eq_bind, Option.some_bind]
    have ih2 := ih hl2
    simp only [forInt32, if_pos hW] at ih2
    rw [ih2]
    simp only [Option.some.injEq, GameOfLife.mk.injEq, true_and]
    funext i j
    by_cases h2 : i.val ∈ l
    · simp [h2]
    · by_cases h3 : i.val = k
      · have h4 : i = ⟨k, hk⟩ := Fin.ext h3
        subst h4
        simp [List.mem_range]
      · have h4 : i ≠ ⟨k, hk⟩ := fun h => h3 (by rw [h])
        simp [h2, h3, h4]

/-- Closed form of `update()` on a grid whose dimensions the loop counters reach. -/
theorem update_eq {H W : Nat} (hH : (H : Int) ≤ INT32_MAX) (hW : (W : Int) ≤ INT32_MAX)
    (s : GameOfLife H W) :
    s.update
      = some { data := fun i j =>
                 Grid.rule (s.data i j) (s.data.liveNeighbors (i.val : Int) (j.val : Int)),
               next := fun _ _ => false } := by
  have e := update_rows_eq hH hW (List.range H) (fun m hm => List.mem_range.mp hm) s
  simp only [GameOfLife.update, forInt32, if_pos hH, if_pos hW] at e ⊢
  rw [e]
  simp only [Option.bind_eq_bind, Option.some_bind, Option.some.injEq, GameOfLife.clear_next,
    Grid.fillFalse, GameOfLife.mk.injEq]
  refine ⟨?_, rfl⟩
  funext i j
  rw [if_pos (List.mem_range.mpr i.isLt)]

theorem int32_bound {n : Nat} (h : n ≤ 2147483647) : (n : Int) ≤ INT32_MAX := by
  unfold INT32_MAX; omega

theorem torus_const_false {H W : Nat} (r c : Int) :
    Grid.torus (H := H) (W := W) (fun _ _ => false) r c = false := by
  unfold Grid.torus
  split <;> rfl

theorem liveNeighbors_const_false {H W : Nat} (r c : Int) :
    Grid.liveNeighbors (H := H) (W := W) (fun _ _ => false) r c = 0 := by
  rw [liveNeighbors_unfold]
  simp only [torus_const_false]
  rfl

/-! ## The transition rule (claims C1, C2, C6) -/

/-- C1, on the grids whose dimensions the `int32_t` loop counters reach
(`H, W ≤ 2147483647`): `update()` returns, `count_neighbors(r, c)` on the
generation before it returns a count `n`, and an in-range cell `(r, c)` that was
alive is alive after the update if and only if `n` is 2 or 3. -/
theorem update_alive_cell (H W : Nat) (hH : H ≤ 2147483647) (hW : W ≤ 2147483647)
    (s : GameOfLife H W) (r : Fin H) (c : Fin W) (halive : s.data r c = true) :
    ∃ (s' : GameOfLife H W) (n : Nat),
      s.update = some s' ∧ s.count_neighbors (r.val : Int) (c.val : Int) = some n ∧
      (s'.data r c = true ↔ (n = 2 ∨ n = 3)) := by
  refine ⟨_, _, update_eq (int32_bound hH) (int32_bound hW) s,
    count_neighbors_eq s (int32_bound hH) (int32_bound hW) r c, ?_⟩
  simp [Grid.rule, halive]

/-- C1 at the centre `(5, 5)` of the blinker `(5,4), (5,5), (5,6)` on the
20 x 40 grid. -/
theorem update_alive_cell_witness :
    (20 ≤ 2147483647 ∧ 40 ≤ 2147483647 ∧
      (GameOfLife.seeded 20 40 [(5, 4), (5, 5), (5, 6)]).data 5 5 = true) ∧
    ∃ (s' : GameOfLife 20 40) (n : Nat),
      (GameOfLife.seeded 20 40 [(5, 4), (5, 5), (5, 6)]).update = some s' ∧
      (GameOfLife.seeded 20 40 [(5, 4), (5, 5), (5, 6)]).count_neighbors
        (((5 : Fin 20).val : Nat) : Int) (((5 : Fin 40).val : Nat) : Int) = some n ∧
      (s'.data 5 5 = true ↔ (n = 2 ∨ n = 3)) :=
  ⟨⟨by decide, by decide, by decide⟩,
    update_alive_cell 20 40 (by decide) (by decide)
      (GameOfLife.seeded 20 40 [(5, 4), (5, 5), (5, 6)]) 5 5 (by decide)⟩

/-- C1 as stated fails on a grid of `2^31` rows: the cell `(0, 0)` is alive and
`update()` has no result, its row counter overflowing after row `2^31 - 1`. -/
theorem update_alive_cell_no_result :
    tallAlive.data ⟨0, by decide⟩ ⟨0, by decide⟩ = true ∧ tallAlive.update = none :=
  ⟨rfl, rfl⟩

/-- C2, on the grids whose dimensions the `int32_t` loop counters reach
(`H, W ≤ 2147483647`): `update()` returns, `count_neighbors(r, c)` on the
generation before it returns a count `n`, and an in-range cell `(r, c)` that was
dead is alive after the update if and only if `n` is exactly 3; otherwise it is
dead. -/
theorem update_dead_cell (H W : Nat) (hH : H ≤ 2147483647) (hW : W ≤ 2147483647)
    (s : GameOfLife H W) (r : Fin H) (c : Fin W) (hdead : s.data r c = false) :
    ∃ (s' : GameOfLife H W) (n : Nat),
      s.update = some s' ∧ s.count_neighbors (r.val : Int) (c.val : Int) = some n ∧
      (s'.data r c = true ↔ n = 3) ∧ (n ≠ 3 → s'.data r c = false) := by
  refine ⟨_, _, update_eq (int32_bound hH) (int32_bound hW) s,
    count_neighbors_eq s (int32_bound hH) (int32_bound hW) r c, ?_, ?_⟩
  · simp [Grid.rule, hdead]
  · simp [Grid.rule, hdead]

/-- C2 at the dead cell `(4, 5)` above the blinker `(5,4), (5,5), (5,6)` on the
20 x 40 grid. -/
theorem update_dead_cell_witness :
    (20 ≤ 2147483647 ∧ 40 ≤ 2147483647 ∧
      (GameOfLife.seeded 20 40 [(5, 4), (5, 5), (5, 6)]).data 4 5 = false) ∧
    ∃ (s' : GameOfLife 20 40) (n : Nat),
      (GameOfLife.seeded 20 40 [(5, 4), (5, 5), (5, 6)]).update = some s' ∧
      (GameOfLife.seeded 20 40 [(5, 4), (5, 5), (5, 6)]).count_neighbors
        (((4 : Fin 20).val : Nat) : Int) (((5 : Fin 40).val : Nat) : Int) = some n ∧
      (s'.data 4 5 = true ↔ n = 3) ∧ (n ≠ 3 → s'.data 4 5 = false) :=
  ⟨⟨by decide, by decide, by decide⟩,
    update_dead_cell 20 40 (by decide) (by decide)
      (GameOfLife.seeded 20 40 [(5, 4), (5, 5), (5, 6)]) 4 5 (by decide)⟩

/-- C2 as stated fails on a grid of `2^31` rows: the cell `(0, 0)` is dead and
`update()` has no result, its row counter overflowing after row `2^31 - 1`. -/
theorem update_dead_cell_no_result :
    tallDead.data ⟨0, by decide⟩ ⟨0, by decide⟩ = false ∧ tallDead.update = none :=
  ⟨rfl, rfl⟩

/-- C6, on the grids whose dimensions the `int32_t` loop counters reach
(`H, W ≤ 2147483647`): `update()` on a grid whose current buffer is all dead
returns a grid whose current buffer is all dead. -/
theorem update_all_dead (H W : Nat) (hH : H ≤ 2147483647) (hW : W ≤ 2147483647)
    (s : GameOfLife H W) (hdead : ∀ r c, s.data r c = false) :
    ∃ s' : GameOfLife H W, s.update = some s' ∧ ∀ r c, s'.data r c = false := by
  refine ⟨_, update_eq (int32_bound hH) (int32_bound hW) s, ?_⟩
  intro r c
  have e : s.data = fun _ _ => false := by
    funext i j; exact hdead i j
  simp only [e, liveNeighbors_const_false]
  rfl

/-- C6 on the empty 20 x 40 grid. -/
theorem update_all_dead_witness :
    (20 ≤ 2147483647 ∧ 40 ≤ 2147483647 ∧ ∀ r c, (GameOfLife.seeded 20 40 []).data r c = false) ∧
    ∃ s' : GameOfLife 20 40,
      (GameOfLife.seeded 20 40 []).update = some s' ∧ ∀ r c, s'.data r c = false :=
  ⟨⟨by decide, by decide, fun _ _ => rfl⟩,
    update_all_dead 20 40 (by decide) (by decide) (GameOfLife.seeded 20 40 []) (fun _ _ => rfl)⟩

/-- C6 as stated fails on a grid of `2^31` columns: every cell is dead and
`update()` has no result, its column counter overflowing after column
`2^31 - 1`. -/
theorem update_all_dead_no_result :
    (∀ r c, wideDead.data r c = false) ∧ wideDead.update = none :=
  ⟨fun _ _ => rfl, rfl⟩

/-! ## Toroidal neighbour count (claim C3) -/

/-- C3, on the grids whose dimensions are at most `2147483647`: for an in-range
cell `(r, c)`, `count_neighbors(r, c)` returns the number of offsets `(dr, dc)`
of `{-1,0,1} x {-1,0,1}` other than `(0,0)` whose cell at row `(r + dr) mod H`,
column `(c + dc) mod W` of the current buffer is alive; on the 20 x 40 grid,
`count_neighbors(0, 0)` is the number of live cells among `(19,39)`, `(19,0)`,
`(19,1)`, `(0,39)`, `(0,1)`, `(1,39)`, `(1,0)`, `(1,1)`. -/
theorem count_neighbors_torus (H W : Nat) (hH : H ≤ 2147483647) (hW : W ≤ 2147483647)
    (s : GameOfLife H W) (r : Fin H) (c : Fin W) :
    s.count_neighbors (r.val : Int) (c.val : Int)
        = some (s.data.liveNeighbors (r.val : Int) (c.val : Int)) ∧
      ∀ t : GameOfLife 20 40,
        t.count_neighbors 0 0
          = some (List.count true [t.data 19 39, t.data 19 0, t.data 19 1, t.data 0 39,
              t.data 0 1, t.data 1 39, t.data 1 0, t.data 1 1]) := by
  refine ⟨count_neighbors_eq s (int32_bound hH) (int32_bound hW) r c, ?_⟩
  intro t
  have e := count_neighbors_eq t (by decide) (by decide) (0 : Fin 20) (0 : Fin 40)
  rw [liveNeighbors_unfold] at e
  have e1 : t.data.torus (((0 : Fin 20).val : Int) + -1) (((0 : Fin 40).val : Int) + -1)
      = t.data 19 39 := rfl
  have e2 : t.data.torus (((0 : Fin 20).val : Int) + -1) (((0 : Fin 40).val : Int) + 0)
      = t.data 19 0 := rfl
  have e3 : t.data.torus (((0 : Fin 20).val : Int) + -1) (((0 : Fin 40).val : Int) + 1)
      = t.data 19 1 := rfl
  have e4 : t.data.torus (((0 : Fin 20).val : Int) + 0) (((0 : Fin 40).val : Int) + -1)
      = t.data 0 39 := rfl
  have e5 : t.data.torus (((0 : Fin 20).val : Int) + 0) (((0 : Fin 40).val : Int) + 1)
      = t.data 0 1 := rfl
  have e6 : t.data.torus (((0 : Fin 20).val : Int) + 1) (((0 : Fin 40).val : Int) + -1)
      = t.data 1 39 := rfl
  have e7 : t.data.torus (((0 : Fin 20).val : Int) + 1) (((0 : Fin 40).val : Int) + 0)
      = t.data 1 0 := rfl
  have e8 : t.data.torus (((0 : Fin 20).val : Int) + 1) (((0 : Fin 40).val : Int) + 1)
      = t.data 1 1 := rfl
  rw [e1, e2, e3, e4, e5, e6, e7, e8] at e
  have e0 : t.count_neighbors 0 0
      = t.count_neighbors (((0 : Fin 20).val : Nat) : Int) (((0 : Fin 40).val : Nat) : Int) := rfl
  rw [e0, e]
  generalize t.data 19 39 = b1
  generalize t.data 19 0 = b2
  generalize t.data 19 1 = b3
  generalize t.data 0 39 = b4
  generalize t.data 0 1 = b5
  generalize t.data 1 39 = b6
  generalize t.data 1 0 = b7
  generalize t.data 1 1 = b8
  cases b1 <;> cases b2 <;> cases b3 <;> cases b4 <;> cases b5 <;> cases b6 <;> cases b7 <;>
    cases b8 <;> rfl

/-- C3 at the corner `(0, 0)` of the 20 x 40 grid seeded with `(19,39)`, `(1,1)`
and the far cell `(10,10)`. -/
theorem count_neighbors_torus_witness :
    (20 ≤ 2147483647 ∧ 40 ≤ 2147483647) ∧
    ((GameOfLife.seeded 20 40 [(19, 39), (1, 1), (10, 10)]).count_neighbors
        (((0 : Fin 20).val : Nat) : Int) (((0 : Fin 40).val : Nat) : Int)
      = some ((GameOfLife.seeded 20 40 [(19, 39), (1, 1), (10, 10)]).data.liveNeighbors
          (((0 : Fin 20).val : Nat) : Int) (((0 : Fin 40).val : Nat) : Int)) ∧
      ∀ t : GameOfLife 20 40,
        t.count_neighbors 0 0
          = some (List.count true [t.data 19 39, t.data 19 0, t.data 19 1, t.data 0 39,
              t.data 0 1, t.data 1 39, t.data 1 0, t.data 1 1])) :=
  ⟨⟨by decide, by decide⟩,
    count_neighbors_torus 20 40 (by decide) (by decide)
      (GameOfLife.seeded 20 40 [(19, 39), (1, 1), (10, 10)]) 0 0⟩

/-- C3 as stated fails on a grid of `2^31 + 5` rows and one column whose only
live cell is `(2^31 - 5, 0)`: that cell is in range, it is its own left and right
neighbour on the torus, so two offsets see a live cell, while
`count_neighbors(2^31 - 5, 0)` returns 0 because `r + 0 + H` wraps to `0` and
`r + 1 + H` wraps to `1` modulo `2^32`. -/
theorem count_neighbors_wraps_at_large_height :
    Grid.inRange 2147483653 1 2147483643 0 ∧
      tallRow.count_neighbors 2147483643 0 = some 0 ∧
      tallRow.data.liveNeighbors 2147483643 0 = 2 := by
  decide


/-! ## Patterns on the 20 x 40 grid (claims C4, C5) -/

theorem toNat_emod_pred (n k : Nat) (hk : k < n) :
    (((k : Int) + -1) % (n : Int)).toNat = (k + (n - 1)) % n := by
  have e : (k : Int) + -1 + (n : Int) = ((k + (n - 1) : Nat) : Int) := by omega
  rw [← Int.add_emod_self, e, ← Int.natCast_mod, Int.toNat_natCast]

theorem toNat_emod_self (n k : Nat) (hk : k < n) :
    (((k : Int) + 0) % (n : Int)).toNat = k := by
  rw [Int.add_zero, ← Int.natCast_mod, Int.toNat_natCast, Nat.mod_eq_of_lt hk]

theorem toNat_emod_succ (n k : Nat) :
    (((k : Int) + 1) % (n : Int)).toNat = (k + 1) % n := by
  have e : (k : Int) + 1 = ((k + 1 : Nat) : Int) := by omega
  rw [e, ← Int.natCast_mod, Int.toNat_natCast]

theorem torus_indicator {H W : Nat} (g : Grid H W) (P : Nat → Nat → Prop)
    (hg : ∀ i j, g i j = true ↔ P i.val j.val) (x y : Int) (a b : Nat) (hH : 0 < H)
    (hW : 0 < W) (ha : (x % (H : Int)).toNat = a) (hb : (y % (W : Int)).toNat = b) :
    ∃ t : Nat, (if g.torus x y = true then 1 else 0) = t ∧ ((P a b ∧ t = 1) ∨ (¬ P a b ∧ t = 0)) := by
  have h : g.torus x y = true ↔ P a b := by
    unfold Grid.torus
    rw [dif_pos ⟨hH, hW⟩, hg]
    simp only [ha, hb]
  by_cases hp : g.torus x y = true
  · exact ⟨1, by rw [if_pos hp], Or.inl ⟨h.mp hp, rfl⟩⟩
  · exact ⟨0, by rw [if_neg hp], Or.inr ⟨fun hq => hp (h.mpr hq), rfl⟩⟩

theorem rule_true_iff (a : Bool) (n : Nat) :
    Grid.rule a n = true ↔ ((a = true ∧ (n = 2 ∨ n = 3)) ∨ (a = false ∧ n = 3)) := by
  cases a <;> simp [Grid.rule]

/-- The neighbour count of a cell of a pattern given by a predicate `P`, as a
sum of eight indicators. -/
theorem liveNeighbors_of_pred {H W : Nat} (g : Grid H W) (P : Nat → Nat → Prop)
    (hg : ∀ i j, g i j = true ↔ P i.val j.val) (i : Fin H) (j : Fin W) :
    ∃ t1 t2 t3 t4 t5 t6 t7 t8 : Nat,
      g.liveNeighbors (i.val : Int) (j.val : Int) = t1 + t2 + t3 + t4 + t5 + t6 + t7 + t8 ∧
      ((P ((i.val + (H - 1)) % H) ((j.val + (W - 1)) % W) ∧ t1 = 1) ∨
        (¬ P ((i.val + (H - 1)) % H) ((j.val + (W - 1)) % W) ∧ t1 = 0)) ∧
      ((P ((i.val + (H - 1)) % H) j.val ∧ t2 = 1) ∨
        (¬ P ((i.val + (H - 1)) % H) j.val ∧ t2 = 0)) ∧
      ((P ((i.val + (H - 1)) % H) ((j.val + 1) % W) ∧ t3 = 1) ∨
        (¬ P ((i.val + (H - 1)) % H) ((j.val + 1) % W) ∧ t3 = 0)) ∧
      ((P i.val ((j.val + (W - 1)) % W) ∧ t4 = 1) ∨
        (¬ P i.val ((j.val + (W - 1)) % W) ∧ t4 = 0)) ∧
      ((P i.val ((j.val + 1) % W) ∧ t5 = 1) ∨
        (¬ P i.val ((j.val + 1) % W) ∧ t5 = 0)) ∧
      ((P ((i.val + 1) % H) ((j.val + (W - 1)) % W) ∧ t6 = 1) ∨
        (¬ P ((i.val + 1) % H) ((j.val + (W - 1)) % W) ∧ t6 = 0)) ∧
      ((P ((i.val + 1) % H) j.val ∧ t7 = 1) ∨
        (¬ P ((i.val + 1) % H) j.val ∧ t7 = 0)) ∧
      ((P ((i.val + 1) % H) ((j.val + 1) % W) ∧ t8 = 1) ∨
        (¬ P ((i.val + 1) % H) ((j.val + 1) % W) ∧ t8 = 0)) := by
  have hH : 0 < H := i.pos
  have hW : 0 < W := j.pos
  have rm := toNat_emod_pred H i.val i.isLt
  have r0 := toNat_emod_self H i.val i.isLt
  have rp := toNat_emod_succ H i.val
  have cm := toNat_emod_pred W j.val j.isLt
  have c0 := toNat_emod_self W j.val j.isLt
  have cp := toNat_emod_succ W j.val
  obtain ⟨t1, e1, h1⟩ := torus_indicator g P hg _ _ _ _ hH hW rm cm
  obtain ⟨t2, e2, h2⟩ := torus_indicator g P hg _ _ _ _ hH hW rm c0
  obtain ⟨t3, e3, h3⟩ := torus_indicator g P hg _ _ _ _ hH hW rm cp
  obtain ⟨t4, e4, h4⟩ := torus_indicator g P hg _ _ _ _ hH hW r0 cm
  obtain ⟨t5, e5, h5⟩ := torus_indicator g P hg _ _ _ _ hH hW r0 cp
  obtain ⟨t6, e6, h6⟩ := torus_indicator g P hg _ _ _ _ hH hW rp cm
  obtain ⟨t7, e7, h7⟩ := torus_indicator g P hg _ _ _ _ hH hW rp c0
  obtain ⟨t8, e8, h8⟩ := torus_indicator g P hg _ _ _ _ hH hW rp cp
  refine ⟨t1, t2, t3, t4, t5, t6, t7, t8, ?_, h1, h2, h3, h4, h5, h6, h7, h8⟩
  rw [liveNeighbors_unfold, e1, e2, e3, e4, e5, e6, e7, e8, Nat.zero_add]

/-- The generation after a horizontal blinker on the 20 x 40 grid. -/
theorem blinker_step_h (r c : Nat) (hr : 1 ≤ r ∧ r ≤ 18) (hc : 1 ≤ c ∧ c ≤ 38)
    (g : Grid 20 40)
    (hg : ∀ i j, g i j = true ↔ (i.val = r ∧ (j.val + 1 = c ∨ j.val = c ∨ j.val = c + 1)))
    (i : Fin 20) (j : Fin 40) :
    Grid.rule (g i j) (g.liveNeighbors (i.val : Int) (j.val : Int)) = true ↔
      ((i.val + 1 = r ∨ i.val = r ∨ i.val = r + 1) ∧ j.val = c) := by
  obtain ⟨t1, t2, t3, t4, t5, t6, t7, t8, e, h1, h2, h3, h4, h5, h6, h7, h8⟩ :=
    liveNeighbors_of_pred g
      (fun a b => a = r ∧ (b + 1 = c ∨ b = c ∨ b = c + 1)) hg i j
  rw [rule_true_iff, e]
  have h0 := hg i j
  have hi := i.isLt
  have hj := j.isLt
  simp only [Nat.reduceSub] at h1 h2 h3 h4 h5 h6 h7 h8
  have hrow : i.val + 1 = r ∨ i.val = r ∨ i.val = r + 1 ∨ (i.val + 1 < r ∨ r + 1 < i.val) := by
    omega
  have hcol : (j.val + 40 - c) % 40 = 0 ∨ (j.val + 40 - c) % 40 = 1 ∨
      (j.val + 40 - c) % 40 = 2 ∨ (j.val + 40 - c) % 40 = 38 ∨ (j.val + 40 - c) % 40 = 39 ∨
      (3 ≤ (j.val + 40 - c) % 40 ∧ (j.val + 40 - c) % 40 ≤ 37) := by
    omega
  rcases hrow with hrow | hrow | hrow | hrow <;>
    rcases hcol with hcol | hcol | hcol | hcol | hcol | hcol
  all_goals
    first
    | (have v1 : t1 = 0 := by clear h2 h3 h4 h5 h6 h7 h8 h0 e; omega)
    | (have v1 : t1 = 1 := by clear h2 h3 h4 h5 h6 h7 h8 h0 e; omega)
  all_goals
    first
    | (have v2 : t2 = 0 := by clear h1 h3 h4 h5 h6 h7 h8 h0 e; omega)
    | (have v2 : t2 = 1 := by clear h1 h3 h4 h5 h6 h7 h8 h0 e; omega)
  all_goals
    first
    | (have v3 : t3 = 0 := by clear h1 h2 h4 h5 h6 h7 h8 h0 e; omega)
    | (have v3 : t3 = 1 := by clear h1 h2 h4 h5 h6 h7 h8 h0 e; omega)
  all_goals
    first
    | (have v4 : t4 = 0 := by clear h1 h2 h3 h5 h6 h7 h8 h0 e; omega)
    | (have v4 : t4 = 1 := by clear h1 h2 h3 h5 h6 h7 h8 h0 e; omega)
  all_goals
    first
    | (have v5 : t5 = 0 := by clear h1 h2 h3 h4 h6 h7 h8 h0 e; omega)
    | (have v5 : t5 = 1 := by clear h1 h2 h3 h4 h6 h7 h8 h0 e; omega)
  all_goals
    first
    | (have v6 : t6 = 0 := by clear h1 h2 h3 h4 h5 h7 h8 h0 e; omega)
    | (have v6 : t6 = 1 := by clear h1 h2 h3 h4 h5 h7 h8 h0 e; omega)
  all_goals
    first
    | (have v7 : t7 = 0 := by clear h1 h2 h3 h4 h5 h6 h8 h0 e; omega)
    | (have v7 : t7 = 1 := by clear h1 h2 h3 h4 h5 h6 h8 h0 e; omega)
  all_goals
    first
    | (have v8 : t8 = 0 := by clear h1 h2 h3 h4 h5 h6 h7 h0 e; omega)
    | (have v8 : t8 = 1 := by clear h1 h2 h3 h4 h5 h6 h7 h0 e; omega)
  all_goals clear h1 h2 h3 h4 h5 h6 h7 h8 e
  all_goals cases hb : g i j
  all_goals rw [hb] at h0
  all_goals simp only [Bool.false_eq_true, false_iff, false_and, false_or, true_and,
    true_iff, Bool.true_eq_false, or_false] at h0 ⊢
  all_goals omega

/-- The generation after a vertical blinker on the 20 x 40 grid. -/
theorem blinker_step_v (r c : Nat) (hr : 1 ≤ r ∧ r ≤ 18) (hc : 1 ≤ c ∧ c ≤ 38)
    (g : Grid 20 40)
    (hg : ∀ i j, g i j = true ↔ ((i.val + 1 = r ∨ i.val = r ∨ i.val = r + 1) ∧ j.val = c))
    (i : Fin 20) (j : Fin 40) :
    Grid.rule (g i j) (g.liveNeighbors (i.val : Int) (j.val : Int)) = true ↔
      (i.val = r ∧ (j.val + 1 = c ∨ j.val = c ∨ j.val = c + 1)) := by
  obtain ⟨t1, t2, t3, t4, t5, t6, t7, t8, e, h1, h2, h3, h4, h5, h6, h7, h8⟩ :=
    liveNeighbors_of_pred g
      (fun a b => (a + 1 = r ∨ a = r ∨ a = r + 1) ∧ b = c) hg i j
  rw [rule_true_iff, e]
  have h0 := hg i j
  have hi := i.isLt
  have hj := j.isLt
  simp only [Nat.reduceSub] at h1 h2 h3 h4 h5 h6 h7 h8
  have hcol : j.val + 1 = c ∨ j.val = c ∨ j.val = c + 1 ∨ (j.val + 1 < c ∨ c + 1 < j.val) := by
    omega
  have hrow : (i.val + 20 - r) % 20 = 0 ∨ (i.val + 20 - r) % 20 = 1 ∨
      (i.val + 20 - r) % 20 = 2 ∨ (i.val + 20 - r) % 20 = 18 ∨ (i.val + 20 - r) % 20 = 19 ∨
      (3 ≤ (i.val + 20 - r) % 20 ∧ (i.val + 20 - r) % 20 ≤ 17) := by
    omega
  rcases hrow with hrow | hrow | hrow | hrow | hrow | hrow <;>
    rcases hcol with hcol | hcol | hcol | hcol
  all_goals
    first
    | (have v1 : t1 = 0 := by clear h2 h3 h4 h5 h6 h7 h8 h0 e; omega)
    | (have v1 : t1 = 1 := by clear h2 h3 h4 h5 h6 h7 h8 h0 e; omega)
  all_goals
    first
    | (have v2 : t2 = 0 := by clear h1 h3 h4 h5 h6 h7 h8 h0 e; omega)
    | (have v2 : t2 = 1 := by clear h1 h3 h4 h5 h6 h7 h8 h0 e; omega)
  all_goals
    first
    | (have v3 : t3 = 0 := by clear h1 h2 h4 h5 h6 h7 h8 h0 e; omega)
    | (have v3 : t3 = 1 := by clear h1 h2 h4 h5 h6 h7 h8 h0 e; omega)
  all_goals
    first
    | (have v4 : t4 = 0 := by clear h1 h2 h3 h5 h6 h7 h8 h0 e; omega)
    | (have v4 : t4 = 1 := by clear h1 h2 h3 h5 h6 h7 h8 h0 e; omega)
  all_goals
    first
    | (have v5 : t5 = 0 := by clear h1 h2 h3 h4 h6 h7 h8 h0 e; omega)
    | (have v5 : t5 = 1 := by clear h1 h2 h3 h4 h6 h7 h8 h0 e; omega)
  all_goals
    first
    | (have v6 : t6 = 0 := by clear h1 h2 h3 h4 h5 h7 h8 h0 e; omega)
    | (have v6 : t6 = 1 := by clear h1 h2 h3 h4 h5 h7 h8 h0 e; omega)
  all_goals
    first
    | (have v7 : t7 = 0 := by clear h1 h2 h3 h4 h5 h6 h8 h0 e; omega)
    | (have v7 : t7 = 1 := by clear h1 h2 h3 h4 h5 h6 h8 h0 e; omega)
  all_goals
    first
    | (have v8 : t8 = 0 := by clear h1 h2 h3 h4 h5 h6 h7 h0 e; omega)
    | (have v8 : t8 = 1 := by clear h1 h2 h3 h4 h5 h6 h7 h0 e; omega)
  all_goals clear h1 h2 h3 h4 h5 h6 h7 h8 e
  all_goals cases hb : g i j
  all_goals rw [hb] at h0
  all_goals simp only [Bool.false_eq_true, false_iff, false_and, false_or, true_and,
    true_iff, Bool.true_eq_false, or_false] at h0 ⊢
  all_goals omega

/-- The generation after a block on the 20 x 40 grid. -/
theorem block_step (r c : Nat) (hr : 1 ≤ r ∧ r ≤ 17) (hc : 1 ≤ c ∧ c ≤ 37)
    (g : Grid 20 40)
    (hg : ∀ i j, g i j = true ↔ ((i.val = r ∨ i.val = r + 1) ∧ (j.val = c ∨ j.val = c + 1)))
    (i : Fin 20) (j : Fin 40) :
    Grid.rule (g i j) (g.liveNeighbors (i.val : Int) (j.val : Int)) = true ↔
      ((i.val = r ∨ i.val = r + 1) ∧ (j.val = c ∨ j.val = c + 1)) := by
  obtain ⟨t1, t2, t3, t4, t5, t6, t7, t8, e, h1, h2, h3, h4, h5, h6, h7, h8⟩ :=
    liveNeighbors_of_pred g
      (fun a b => (a = r ∨ a = r + 1) ∧ (b = c ∨ b = c + 1)) hg i j
  rw [rule_true_iff, e]
  have h0 := hg i j
  have hi := i.isLt
  have hj := j.isLt
  simp only [Nat.reduceSub] at h1 h2 h3 h4 h5 h6 h7 h8
  have hrow : (i.val + 20 - r) % 20 = 0 ∨ (i.val + 20 - r) % 20 = 1 ∨
      (i.val + 20 - r) % 20 = 2 ∨ (i.val + 20 - r) % 20 = 19 ∨
      (3 ≤ (i.val + 20 - r) % 20 ∧ (i.val + 20 - r) % 20 ≤ 18) := by
    omega
  have hcol : (j.val + 40 - c) % 40 = 0 ∨ (j.val + 40 - c) % 40 = 1 ∨
      (j.val + 40 - c) % 40 = 2 ∨ (j.val + 40 - c) % 40 = 39 ∨
      (3 ≤ (j.val + 40 - c) % 40 ∧ (j.val + 40 - c) % 40 ≤ 38) := by
    omega
  rcases hrow with hrow | hrow | hrow | hrow | hrow <;>
    rcases hcol with hcol | hcol | hcol | hcol | hcol
  all_goals
    first
    | (have v1 : t1 = 0 := by clear h2 h3 h4 h5 h6 h7 h8 h0 e; omega)
    | (have v1 : t1 = 1 := by clear h2 h3 h4 h5 h6 h7 h8 h0 e; omega)
  all_goals
    first
    | (have v2 : t2 = 0 := by clear h1 h3 h4 h5 h6 h7 h8 h0 e; omega)
    | (have v2 : t2 = 1 := by clear h1 h3 h4 h5 h6 h7 h8 h0 e; omega)
  all_goals
    first
    | (have v3 : t3 = 0 := by clear h1 h2 h4 h5 h6 h7 h8 h0 e; omega)
    | (have v3 : t3 = 1 := by clear h1 h2 h4 h5 h6 h7 h8 h0 e; omega)
  all_goals
    first
    | (have v4 : t4 = 0 := by clear h1 h2 h3 h5 h6 h7 h8 h0 e; omega)
    | (have v4 : t4 = 1 := by clear h1 h2 h3 h5 h6 h7 h8 h0 e; omega)
  all_goals
    first
    | (have v5 : t5 = 0 := by clear h1 h2 h3 h4 h6 h7 h8 h0 e; omega)
    | (have v5 : t5 = 1 := by clear h1 h2 h3 h4 h6 h7 h8 h0 e; omega)
  all_goals
    first
    | (have v6 : t6 = 0 := by clear h1 h2 h3 h4 h5 h7 h8 h0 e; omega)
    | (have v6 : t6 = 1 := by clear h1 h2 h3 h4 h5 h7 h8 h0 e; omega)
  all_goals
    first
    | (have v7 : t7 = 0 := by clear h1 h2 h3 h4 h5 h6 h8 h0 e; omega)
    | (have v7 : t7 = 1 := by clear h1 h2 h3 h4 h5 h6 h8 h0 e; omega)
  all_goals
    first
    | (have v8 : t8 = 0 := by clear h1 h2 h3 h4 h5 h6 h7 h0 e; omega)
    | (have v8 : t8 = 1 := by clear h1 h2 h3 h4 h5 h6 h7 h0 e; omega)
  all_goals clear h1 h2 h3 h4 h5 h6 h7 h8 e
  all_goals cases hb : g i j
  all_goals rw [hb] at h0
  all_goals simp only [Bool.false_eq_true, false_iff, false_and, false_or, true_and,
    true_iff, Bool.true_eq_false, or_false] at h0 ⊢
  all_goals omega

/-- C4: on the 20 x 40 grid, for every centre `(r, c)` with `1 ≤ r ≤ 18` and
`1 ≤ c ≤ 38`, if the only live cells are `(r, c-1)`, `(r, c)`, `(r, c+1)`, then
`update()` returns a state whose only live cells are `(r-1, c)`, `(r, c)`,
`(r+1, c)`, and a second `update()` returns a state whose live cells are again
exactly `(r, c-1)`, `(r, c)`, `(r, c+1)`. -/
theorem blinker_period_two (r c : Nat) (hr : 1 ≤ r ∧ r ≤ 18) (hc : 1 ≤ c ∧ c ≤ 38)
    (s : GameOfLife 20 40)
    (hs : ∀ i j, s.data i j = true ↔
      (i.val = r ∧ (j.val + 1 = c ∨ j.val = c ∨ j.val = c + 1))) :
    ∃ s1 s2 : GameOfLife 20 40, s.update = some s1 ∧ s1.update = some s2 ∧
      (∀ i j, s1.data i j = true ↔
        ((i.val + 1 = r ∨ i.val = r ∨ i.val = r + 1) ∧ j.val = c)) ∧
      (∀ i j, s2.data i j = true ↔
        (i.val = r ∧ (j.val + 1 = c ∨ j.val = c ∨ j.val = c + 1))) := by
  have h1 := blinker_step_h r c hr hc s.data hs
  refine ⟨_, _, update_eq (by decide) (by decide) s, update_eq (by decide) (by decide) _, h1, ?_⟩
  exact blinker_step_v r c hr hc _ h1

/-- C4 on the blinker `(5,4), (5,5), (5,6)`: one update gives `(4,5), (5,5),
(6,5)`, a second gives `(5,4), (5,5), (5,6)` back. -/
theorem blinker_period_two_witness :
    ((1 ≤ 5 ∧ 5 ≤ 18) ∧ (1 ≤ 5 ∧ 5 ≤ 38)) ∧
    ∃ s1 s2 : GameOfLife 20 40,
      (GameOfLife.seeded 20 40 [(5, 4), (5, 5), (5, 6)]).update = some s1 ∧
      s1.update = some s2 ∧
      (∀ i j, s1.data i j = true ↔
        ((i.val + 1 = 5 ∨ i.val = 5 ∨ i.val = 5 + 1) ∧ j.val = 5)) ∧
      (∀ i j, s2.data i j = true ↔
        (i.val = 5 ∧ (j.val + 1 = 5 ∨ j.val = 5 ∨ j.val = 5 + 1))) :=
  ⟨by decide,
    blinker_period_two 5 5 (by decide) (by decide)
      (GameOfLife.seeded 20 40 [(5, 4), (5, 5), (5, 6)])
      (fun i j => by simp [GameOfLife.seeded]; omega)⟩

/-- C5: on the 20 x 40 grid, for every top-left corner `(r, c)` with
`1 ≤ r ≤ 17` and `1 ≤ c ≤ 37`, if the only live cells are `(r, c)`, `(r, c+1)`,
`(r+1, c)`, `(r+1, c+1)`, then `update()` returns a state whose current buffer
is identical to the current buffer before it. -/
theorem block_still_life (r c : Nat) (hr : 1 ≤ r ∧ r ≤ 17) (hc : 1 ≤ c ∧ c ≤ 37)
    (s : GameOfLife 20 40)
    (hs : ∀ i j, s.data i j = true ↔
      ((i.val = r ∨ i.val = r + 1) ∧ (j.val = c ∨ j.val = c + 1))) :
    ∃ s' : GameOfLife 20 40, s.update = some s' ∧ s'.data = s.data := by
  refine ⟨_, update_eq (by decide) (by decide) s, ?_⟩
  funext i j
  have h1 := block_step r c hr hc s.data hs i j
  have h2 := hs i j
  show Grid.rule (s.data i j) (s.data.liveNeighbors (i.val : Int) (j.val : Int)) = s.data i j
  rw [Bool.eq_iff_iff, h1, h2]

/-- C5 on the block seeded at `(5,5), (5,6), (6,5), (6,6)`. -/
theorem block_still_life_witness :
    ((1 ≤ 5 ∧ 5 ≤ 17) ∧ (1 ≤ 5 ∧ 5 ≤ 37)) ∧
    ∃ s' : GameOfLife 20 40,
      (GameOfLife.seeded 20 40 [(5, 5), (5, 6), (6, 5), (6, 6)]).update = some s' ∧
      s'.data = (GameOfLife.seeded 20 40 [(5, 5), (5, 6), (6, 5), (6, 6)]).data :=
  ⟨by decide,
    block_still_life 5 5 (by decide) (by decide)
      (GameOfLife.seeded 20 40 [(5, 5), (5, 6), (6, 5), (6, 6)])
      (fun i j => by simp [GameOfLife.seeded]; omega)⟩

/-! ## Seeding (claims C8, C9, C10) -/

theorem set_cell_eq {H W : Nat} (s : GameOfLife H W) (r c : Int) (alive : Bool)
    (h : Grid.inRange H W r c) :
    s.set_cell r c alive
      = some { data := fun i j => if (i.val : Int) = r ∧ (j.val : Int) = c then alive
                 else s.data i j,
               next := s.next } := by
  simp only [GameOfLife.set_cell, Grid.set?, if_pos h, Option.bind_eq_bind, Option.some_bind]

theorem set_cell_group_eq {H W : Nat} (group : CellGroup) (alive : Bool)
    (hgroup : ∀ p ∈ group, Grid.inRange H W p.1 p.2) (s : GameOfLife H W) :
    s.set_cell_group group alive
      = some { data := fun i j => if ((i.val : Int), (j.val : Int)) ∈ group then alive
                 else s.data i j,
               next := s.next } := by
  unfold GameOfLife.set_cell_group
  induction group generalizing s with
  | nil => simp
  | cons p l ih =>
    have hp := hgroup p (List.mem_cons_self p l)
    have hl : ∀ q ∈ l, Grid.inRange H W q.1 q.2 := fun q hq => hgroup q (List.mem_cons_of_mem p hq)
    rw [List.foldlM_cons, set_cell_eq s p.1 p.2 alive hp]
    simp only [Option.bind_eq_bind, Option.some_bind]
    rw [ih hl]
    simp only [Option.some.injEq, GameOfLife.mk.injEq, and_true]
    funext i j
    by_cases h1 : ((i.val : Int), (j.val : Int)) ∈ l
    · simp [h1]
    · by_cases h2 : ((i.val : Int), (j.val : Int)) = p
      · subst h2
        simp [h1]
      · have h3 : ¬ ((i.val : Int) = p.1 ∧ (j.val : Int) = p.2) := by
          intro h; exact h2 (Prod.ext h.1 h.2)
        simp [h1, h2, h3]

/-- C8: for every state, every in-range `(r, c)` and every boolean `alive`,
`set_cell(r, c, alive)` returns a state whose current buffer holds `alive` at
`(r, c)` and is unchanged at every other cell, and whose next buffer is
unchanged. -/
theorem set_cell_frame (H W : Nat) (s : GameOfLife H W) (r : Fin H) (c : Fin W) (alive : Bool) :
    ∃ s' : GameOfLife H W, s.set_cell (r.val : Int) (c.val : Int) alive = some s' ∧
      s'.data r c = alive ∧
      (∀ i j, (i ≠ r ∨ j ≠ c) → s'.data i j = s.data i j) ∧
      s'.next = s.next := by
  have h : Grid.inRange H W (r.val : Int) (c.val : Int) := by
    unfold Grid.inRange; omega
  refine ⟨_, set_cell_eq s _ _ alive h, ?_, ?_, rfl⟩
  · simp
  · intro i j hij
    have h3 : ¬ ((i.val : Int) = (r.val : Int) ∧ (j.val : Int) = (c.val : Int)) := by
      intro h4
      rcases hij with h5 | h5
      · exact h5 (Fin.ext (by omega))
      · exact h5 (Fin.ext (by omega))
    show (if (i.val : Int) = (r.val : Int) ∧ (j.val : Int) = (c.val : Int) then alive
      else s.data i j) = s.data i j
    rw [if_neg h3]

/-- C9: for every state, every group of in-range coordinates and every boolean
`alive`, `set_cell_group(group, alive)` returns a state in which a cell of the
current buffer holds `alive` if its coordinate occurs in `group` and its
previous value otherwise, and whose next buffer is unchanged. -/
theorem set_cell_group_spec (H W : Nat) (s : GameOfLife H W) (group : CellGroup) (alive : Bool)
    (hgroup : ∀ p ∈ group, Grid.inRange H W p.1 p.2) :
    ∃ s' : GameOfLife H W, s.set_cell_group group alive = some s' ∧
      (∀ i j, s'.data i j =
        if ((i.val : Int), (j.val : Int)) ∈ group then alive else s.data i j) ∧
      s'.next = s.next :=
  ⟨_, set_cell_group_eq group alive hgroup s, fun _ _ => rfl, rfl⟩

/-- C9 on the empty 20 x 40 grid seeded with the blinker `(5,4), (5,5), (5,6)`. -/
theorem set_cell_group_spec_witness :
    (∀ p ∈ [((5 : Int), (4 : Int)), (5, 5), (5, 6)], Grid.inRange 20 40 p.1 p.2) ∧
    ∃ s' : GameOfLife 20 40,
      (GameOfLife.seeded 20 40 []).set_cell_group [(5, 4), (5, 5), (5, 6)] true = some s' ∧
      (∀ i j, s'.data i j =
        if ((i.val : Int), (j.val : Int)) ∈ [((5 : Int), (4 : Int)), (5, 5), (5, 6)] then true
        else (GameOfLife.seeded 20 40 []).data i j) ∧
      s'.next = (GameOfLife.seeded 20 40 []).next :=
  ⟨by decide,
    set_cell_group_spec 20 40 (GameOfLife.seeded 20 40 []) [(5, 4), (5, 5), (5, 6)] true
      (by decide)⟩

/-- C10: for every state, every boolean `alive` and any two groups of in-range
coordinates that contain the same set of coordinates (so also when one is a
permutation of the other, or when they differ only by repeated entries),
`set_cell_group` returns the same resulting state for both. -/
theorem set_cell_group_same_set (H W : Nat) (s : GameOfLife H W) (g1 g2 : CellGroup)
    (alive : Bool) (h1 : ∀ p ∈ g1, Grid.inRange H W p.1 p.2)
    (h2 : ∀ p ∈ g2, Grid.inRange H W p.1 p.2) (hset : ∀ p, p ∈ g1 ↔ p ∈ g2) :
    ∃ s' : GameOfLife H W,
      s.set_cell_group g1 alive = some s' ∧ s.set_cell_group g2 alive = some s' := by
  refine ⟨_, set_cell_group_eq g1 alive h1 s, ?_⟩
  rw [set_cell_group_eq g2 alive h2 s]
  simp only [Option.some.injEq, GameOfLife.mk.injEq, and_true]
  funext i j
  simp only [hset]

/-- C10 on the blinker `(5,4), (5,5), (5,6)` against a reordering of it with
repeated entries. -/
theorem set_cell_group_same_set_witness :
    ((∀ p ∈ [((5 : Int), (4 : Int)), (5, 5), (5, 6)], Grid.inRange 20 40 p.1 p.2) ∧
      (∀ p ∈ [((5 : Int), (6 : Int)), (5, 4), (5, 6), (5, 5), (5, 4)],
        Grid.inRange 20 40 p.1 p.2)) ∧
    ∃ s' : GameOfLife 20 40,
      (GameOfLife.seeded 20 40 []).set_cell_group [(5, 4), (5, 5), (5, 6)] true = some s' ∧
      (GameOfLife.seeded 20 40 []).set_cell_group [(5, 6), (5, 4), (5, 6), (5, 5), (5, 4)] true
        = some s' :=
  ⟨⟨by decide, by decide⟩,
    set_cell_group_same_set 20 40 (GameOfLife.seeded 20 40 []) [(5, 4), (5, 5), (5, 6)]
      [(5, 6), (5, 4), (5, 6), (5, 5), (5, 4)] true (by decide) (by decide)
      (fun p => by simp only [List.mem_cons, List.mem_singleton, List.not_mem_nil, or_false]; tauto)⟩

/-! ## The scratch buffer between cycles (claim C7) -/

theorem update_next_dead {H W : Nat} (s s' : GameOfLife H W) (h : s.update = some s') :
    s'.NextDead := by
  unfold GameOfLife.update at h
  simp only [Option.bind_eq_bind, Option.bind_eq_some, Option.some.injEq] at h
  obtain ⟨s1, _, h2⟩ := h
  rw [← h2]
  intro i j
  rfl

theorem run_cycles_next_dead {H W : Nat} (n : Nat) (s s' : GameOfLife H W) (hs : s.NextDead)
    (h : GameOfLife.run_cycles n s = some s') : s'.NextDead := by
  induction n generalizing s with
  | zero =>
    simp only [GameOfLife.run_cycles, Option.some.injEq] at h
    rw [← h]; exact hs
  | succ n ih =>
    simp only [GameOfLife.run_cycles, Option.bind_eq_some] at h
    obtain ⟨s1, h1, h2⟩ := h
    exact ih s1 (update_next_dead s s1 h1) h2

theorem run_cycles_returns {H W : Nat} (hH : (H : Int) ≤ INT32_MAX) (hW : (W : Int) ≤ INT32_MAX)
    (n : Nat) (s : GameOfLife H W) : ∃ s', GameOfLife.run_cycles n s = some s' := by
  induction n generalizing s with
  | zero => exact ⟨s, rfl⟩
  | succ n ih =>
    obtain ⟨s', h⟩ := ih _
    refine ⟨s', ?_⟩
    simp only [GameOfLife.run_cycles, update_eq hH hW s, Option.some_bind]
    exact h

/-- C7: the predicate "every cell of the next buffer is dead" holds after
construction from any initial contents; from a state `s` that satisfies it,
`set_cell` and `set_cell_group` with in-range arguments return a state that
satisfies it, as does `clear()`; every state returned by `update()` satisfies
it, and so does the state at the start of every cycle of `run()`; on grids whose
dimensions the loop counters reach, `update()` and every cycle of `run()` do
return. -/
theorem next_dead_invariant (H W : Nat) (uninit s : GameOfLife H W) (hs : s.NextDead)
    (r c : Int) (hin : Grid.inRange H W r c) (group : CellGroup)
    (hgroup : ∀ p ∈ group, Grid.inRange H W p.1 p.2) (alive : Bool) (n : Nat) :
    uninit.construct.NextDead ∧
    (∃ s', s.set_cell r c alive = some s' ∧ s'.NextDead) ∧
    (∃ s', s.set_cell_group group alive = some s' ∧ s'.NextDead) ∧
    s.clear.NextDead ∧
    (∀ s', s.update = some s' → s'.NextDead) ∧
    (∀ s', GameOfLife.run_cycles n s = some s' → s'.NextDead) ∧
    (H ≤ 2147483647 → W ≤ 2147483647 →
      (∃ s', s.update = some s' ∧ s'.NextDead) ∧
      (∃ s', GameOfLife.run_cycles n s = some s' ∧ s'.NextDead)) := by
  refine ⟨fun _ _ => rfl, ⟨_, set_cell_eq s r c alive hin, hs⟩,
    ⟨_, set_cell_group_eq group alive hgroup s, hs⟩, fun _ _ => rfl,
    fun s' h => update_next_dead s s' h, fun s' h => run_cycles_next_dead n s s' hs h, ?_⟩
  intro hH hW
  refine ⟨⟨_, update_eq (int32_bound hH) (int32_bound hW) s, fun _ _ => rfl⟩, ?_⟩
  obtain ⟨s', h⟩ := run_cycles_returns (int32_bound hH) (int32_bound hW) n s
  exact ⟨s', h, run_cycles_next_dead n s s' hs h⟩

/-- C7 on the 20 x 40 grid, on inputs that leave live cells in the next buffer
unless it is cleared: construction in storage whose two buffers are alive
everywhere, and `update()` and three cycles of `run()` from the blinker
`(5,4), (5,5), (5,6)`, whose live current buffer becomes the next buffer at the
swap. -/
theorem next_dead_invariant_witness :
    ((GameOfLife.mk (H := 20) (W := 40) (fun _ _ => true) (fun _ _ => true)).next 0 0 = true ∧
      (GameOfLife.seeded 20 40 [(5, 4), (5, 5), (5, 6)]).data 5 5 = true ∧
      (GameOfLife.seeded 20 40 [(5, 4), (5, 5), (5, 6)]).NextDead ∧
      Grid.inRange 20 40 7 7 ∧
      (∀ p ∈ [((9 : Int), (4 : Int)), (9, 5), (9, 6)], Grid.inRange 20 40 p.1 p.2)) ∧
    ((GameOfLife.mk (H := 20) (W := 40) (fun _ _ => true) (fun _ _ => true)).construct.NextDead ∧
    (∃ s', (GameOfLife.seeded 20 40 [(5, 4), (5, 5), (5, 6)]).set_cell 7 7 true = some s' ∧
      s'.NextDead) ∧
    (∃ s', (GameOfLife.seeded 20 40 [(5, 4), (5, 5), (5, 6)]).set_cell_group
        [(9, 4), (9, 5), (9, 6)] true = some s' ∧
      s'.NextDead) ∧
    (GameOfLife.seeded 20 40 [(5, 4), (5, 5), (5, 6)]).clear.NextDead ∧
    (∀ s', (GameOfLife.seeded 20 40 [(5, 4), (5, 5), (5, 6)]).update = some s' →
      s'.NextDead) ∧
    (∀ s', GameOfLife.run_cycles 3 (GameOfLife.seeded 20 40 [(5, 4), (5, 5), (5, 6)]) = some s' →
      s'.NextDead) ∧
    (20 ≤ 2147483647 → 40 ≤ 2147483647 →
      (∃ s', (GameOfLife.seeded 20 40 [(5, 4), (5, 5), (5, 6)]).update = some s' ∧
        s'.NextDead) ∧
      (∃ s', GameOfLife.run_cycles 3 (GameOfLife.seeded 20 40 [(5, 4), (5, 5), (5, 6)])
          = some s' ∧
        s'.NextDead))) :=
  ⟨⟨rfl, by decide, fun _ _ => rfl, by decide, by decide⟩,
    next_dead_invariant 20 40 (GameOfLife.mk (fun _ _ => true) (fun _ _ => true))
      (GameOfLife.seeded 20 40 [(5, 4), (5, 5), (5, 6)])
      (fun _ _ => rfl) 7 7 (by decide) [(9, 4), (9, 5), (9, 6)] (by decide) true 3⟩

/-! ## Clearing and construction (claim C11) -/

/-- C11: for every prior state, after `clear()` every cell of the current
buffer and of the next buffer is dead, and a newly constructed engine, whatever
its storage held, is exactly this all-dead state. -/
theorem clear_all_dead (H W : Nat) (s uninit : GameOfLife H W) :
    (∀ i j, s.clear.data i j = false ∧ s.clear.next i j = false) ∧
    uninit.construct = ⟨fun _ _ => false, fun _ _ => false⟩ ∧
    uninit.construct = s.clear :=
  ⟨fun _ _ => ⟨rfl, rfl⟩, rfl, rfl⟩

/-! ## The wrapped index in 32-bit arithmetic (claim C18) -/

theorem visited_eq {H W : Nat} (hH : (H : Int) ≤ INT32_MAX) (hW : (W : Int) ≤ INT32_MAX)
    (r : Fin H) (c : Fin W) :
    GameOfLife.visited H W (r.val : Int) (c.val : Int)
      = some (Grid.offsets.map (Grid.torusCoord H W (r.val : Int) (c.val : Int))) := by
  have wr : ∀ d : Int, d = -1 ∨ d = 0 ∨ d = 1 →
      GameOfLife.wrapIndex H (r.val : Int) d = some (((r.val : Int) + d) % (H : Int)) :=
    fun d hd => wrapIndex_eq H r.val d hH r.isLt hd
  have wc : ∀ d : Int, d = -1 ∨ d = 0 ∨ d = 1 →
      GameOfLife.wrapIndex W (c.val : Int) d = some (((c.val : Int) + d) % (W : Int)) :=
    fun d hd => wrapIndex_eq W c.val d hW c.isLt hd
  simp only [GameOfLife.visited, List.foldlM_cons, List.foldlM_nil,
    wr (-1) (by decide), wr 0 (by decide), wr 1 (by decide),
    wc (-1) (by decide), wc 0 (by decide), wc 1 (by decide),
    Option.bind_eq_bind, Option.some_bind, Option.pure_def]
  rfl

theorem torusCoord_inRange {H W : Nat} (hH : 0 < H) (hW : 0 < W) (r c : Int) (d : Int × Int) :
    Grid.inRange H W (Grid.torusCoord H W r c d).1 (Grid.torusCoord H W r c d).2 := by
  have h1 := Int.emod_nonneg (r + d.1) (show (H : Int) ≠ 0 by omega)
  have h2 := Int.emod_lt_of_pos (r + d.1) (show (0 : Int) < H by omega)
  have h3 := Int.emod_nonneg (c + d.2) (show (W : Int) ≠ 0 by omega)
  have h4 := Int.emod_lt_of_pos (c + d.2) (show (0 : Int) < W by omega)
  exact ⟨⟨h1, h2⟩, ⟨h3, h4⟩⟩

/-- C18: for every `0 < H < 2^31`, every `0 ≤ r < H` and every `dr` in
`{-1, 0, 1}`, the value `(r + dr + H) % H` computed with `r + dr` as a 32-bit
signed integer converted to 32-bit unsigned and added to `H` modulo `2^32`
equals the mathematical `(r + dr) mod H` and lies in `[0, H)`; the same holds
for columns, so on a grid with both dimensions below `2^31` every subscript pair
`count_neighbors` computes for an in-range cell is inside the array and
`count_neighbors` returns a count. -/
theorem wrapped_index_in_range (H : Nat) (r : Nat) (dr : Int) (hH0 : 0 < H)
    (hH : H < 2147483648) (hr : r < H) (hdr : dr = -1 ∨ dr = 0 ∨ dr = 1) :
    toInt32 (((toUInt32 ((r : Int) + dr) + H) % 4294967296) % H) = ((r : Int) + dr) % (H : Int) ∧
    GameOfLife.wrapIndex H (r : Int) dr = some (((r : Int) + dr) % (H : Int)) ∧
    (0 ≤ ((r : Int) + dr) % (H : Int) ∧ ((r : Int) + dr) % (H : Int) < (H : Int)) ∧
    (∀ (W : Nat) (s : GameOfLife H W) (c : Nat), W < 2147483648 → c < W →
      ∃ (l : List (Int × Int)) (n : Nat),
        GameOfLife.visited H W (r : Int) (c : Int) = some l ∧
        (∀ p ∈ l, Grid.inRange H W p.1 p.2) ∧
        s.count_neighbors (r : Int) (c : Int) = some n) := by
  have hH' : (H : Int) ≤ INT32_MAX := by unfold INT32_MAX; omega
  have e := wrapIndex_eq H r dr hH' hr hdr
  refine ⟨?_, e, ⟨Int.emod_nonneg _ (by omega), Int.emod_lt_of_pos _ (by omega)⟩, ?_⟩
  · have hc : checkedInt32 ((r : Int) + dr) = some ((r : Int) + dr) := by
      unfold checkedInt32 INT32_MIN INT32_MAX
      rw [if_pos]; omega
    have hn0 : H ≠ 0 := by omega
    simp only [GameOfLife.wrapIndex, hc, Option.bind_eq_bind, Option.some_bind, if_neg hn0,
      Option.some.injEq, UINT32_MODULUS] at e
    exact e
  · intro W s c hW hc
    have hW' : (W : Int) ≤ INT32_MAX := by unfold INT32_MAX; omega
    refine ⟨_, _, visited_eq hH' hW' ⟨r, hr⟩ ⟨c, hc⟩, ?_,
      count_neighbors_eq s hH' hW' ⟨r, hr⟩ ⟨c, hc⟩⟩
    intro p hp
    obtain ⟨d, _, hd⟩ := List.mem_map.mp hp
    rw [← hd]
    exact torusCoord_inRange hH0 (by omega) _ _ d

/-- C18 at the top-left corner of the 20 x 40 grid with `dr = -1`. -/
theorem wrapped_index_in_range_witness :
    (0 < 20 ∧ 20 < 2147483648 ∧ 0 < 20 ∧ ((-1 : Int) = -1 ∨ (-1 : Int) = 0 ∨ (-1 : Int) = 1)) ∧
    (toInt32 (((toUInt32 (((0 : Nat) : Int) + -1) + 20) % 4294967296) % 20)
        = (((0 : Nat) : Int) + -1) % ((20 : Nat) : Int) ∧
    GameOfLife.wrapIndex 20 ((0 : Nat) : Int) (-1)
        = some ((((0 : Nat) : Int) + -1) % ((20 : Nat) : Int)) ∧
    (0 ≤ (((0 : Nat) : Int) + -1) % ((20 : Nat) : Int) ∧
      (((0 : Nat) : Int) + -1) % ((20 : Nat) : Int) < ((20 : Nat) : Int)) ∧
    (∀ (W : Nat) (s : GameOfLife 20 W) (c : Nat), W < 2147483648 → c < W →
      ∃ (l : List (Int × Int)) (n : Nat),
        GameOfLife.visited 20 W ((0 : Nat) : Int) (c : Int) = some l ∧
        (∀ p ∈ l, Grid.inRange 20 W p.1 p.2) ∧
        s.count_neighbors ((0 : Nat) : Int) (c : Int) = some n)) :=
  ⟨by decide, wrapped_index_in_range 20 0 (-1) (by decide) (by decide) (by decide) (by decide)⟩

/-! ## The scratch buffer does not influence a step (claim C17) -/

theorem foldlM_none_of_first {σ : Type} (f : σ → Nat → Option σ) (k : Nat) (l : List Nat)
    (s : σ) (h : f s k = none) : (k :: l).foldlM f s = none := by
  rw [List.foldlM_cons, h]
  rfl

theorem update_none_of_wide {H W : Nat} (hH0 : 0 < H) (hW : ¬ (W : Int) ≤ INT32_MAX)
    (s : GameOfLife H W) : s.update = none := by
  unfold GameOfLife.update forInt32
  by_cases hH : (H : Int) ≤ INT32_MAX
  · obtain ⟨n, rfl⟩ : ∃ n, H = n + 1 := ⟨H - 1, by omega⟩
    rw [if_pos hH, List.range_succ_eq_map, foldlM_none_of_first]
    · rfl
    · simp only [forInt32, if_neg hW]
  · rw [if_neg hH]
    rfl

theorem update_none_of_tall {H W : Nat} (hH : ¬ (H : Int) ≤ INT32_MAX)
    (s : GameOfLife H W) : s.update = none := by
  unfold GameOfLife.update forInt32
  rw [if_neg hH]
  rfl

/-- The current buffer of every state `update()` returns, cell by cell. -/
theorem update_data_of_some {H W : Nat} (s s' : GameOfLife H W) (h : s.update = some s')
    (i : Fin H) (j : Fin W) :
    s'.data i j = Grid.rule (s.data i j) (s.data.liveNeighbors (i.val : Int) (j.val : Int)) := by
  by_cases hH : (H : Int) ≤ INT32_MAX
  · by_cases hW : (W : Int) ≤ INT32_MAX
    · rw [update_eq hH hW s] at h
      simp only [Option.some.injEq] at h
      rw [← h]
    · rw [update_none_of_wide i.pos hW s] at h
      exact absurd h (by simp)
  · rw [update_none_of_tall hH s] at h
    exact absurd h (by simp)

theorem update_congr_data {H W : Nat} (s1 s2 : GameOfLife H W) (hdata : s1.data = s2.data) :
    s1.update = s2.update := by
  by_cases hH : (H : Int) ≤ INT32_MAX
  · by_cases hW : (W : Int) ≤ INT32_MAX
    · rw [update_eq hH hW s1, update_eq hH hW s2, hdata]
    · by_cases hH0 : 0 < H
      · rw [update_none_of_wide hH0 hW s1, update_none_of_wide hH0 hW s2]
      · obtain rfl : H = 0 := by omega
        have e : ∀ t : GameOfLife 0 W,
            t.update = some ⟨fun i _ => i.elim0, fun _ _ => false⟩ := by
          intro t
          simp only [GameOfLife.update, forInt32, if_pos hH, List.range_zero, List.foldlM_nil,
            Option.pure_def, Option.bind_eq_bind, Option.some_bind, Option.some.injEq,
            GameOfLife.clear_next, Grid.fillFalse, GameOfLife.mk.injEq]
          refine ⟨?_, rfl⟩
          funext i
          exact i.elim0
        rw [e s1, e s2]
  · rw [update_none_of_tall hH s1, update_none_of_tall hH s2]

/-- C17: two states with the same current buffer and arbitrary next buffers
have the same result of `update()`; every cell of the current buffer of the
state `update()` returns is the transition rule applied to the old current
buffer alone; and `update()` does return on the grids whose dimensions its loop
counters reach. -/
theorem update_ignores_next (H W : Nat) (s1 s2 : GameOfLife H W) (hdata : s1.data = s2.data) :
    s1.update = s2.update ∧
    (∀ s', s1.update = some s' → ∀ i j,
      s'.data i j = Grid.rule (s1.data i j) (s1.data.liveNeighbors (i.val : Int) (j.val : Int))) ∧
    (H ≤ 2147483647 → W ≤ 2147483647 → ∃ s', s1.update = some s' ∧ s2.update = some s') := by
  refine ⟨update_congr_data s1 s2 hdata, fun s' h i j => update_data_of_some s1 s' h i j, ?_⟩
  intro hH hW
  refine ⟨_, update_eq (int32_bound hH) (int32_bound hW) s1, ?_⟩
  rw [← update_congr_data s1 s2 hdata]
  exact update_eq (int32_bound hH) (int32_bound hW) s1

/-- C17 on the blinker `(5,4), (5,5), (5,6)` of the 20 x 40 grid, once with a
dead next buffer and once with a next buffer that is alive everywhere. -/
theorem update_ignores_next_witness :
    ((GameOfLife.seeded 20 40 [(5, 4), (5, 5), (5, 6)]).data
        = (GameOfLife.mk (GameOfLife.seeded 20 40 [(5, 4), (5, 5), (5, 6)]).data
            (fun _ _ => true)).data) ∧
    ((GameOfLife.seeded 20 40 [(5, 4), (5, 5), (5, 6)]).update
        = (GameOfLife.mk (GameOfLife.seeded 20 40 [(5, 4), (5, 5), (5, 6)]).data
            (fun _ _ => true)).update ∧
    (∀ s', (GameOfLife.seeded 20 40 [(5, 4), (5, 5), (5, 6)]).update = some s' → ∀ i j,
      s'.data i j = Grid.rule ((GameOfLife.seeded 20 40 [(5, 4), (5, 5), (5, 6)]).data i j)
        ((GameOfLife.seeded 20 40 [(5, 4), (5, 5), (5, 6)]).data.liveNeighbors
          (i.val : Int) (j.val : Int))) ∧
    (20 ≤ 2147483647 → 40 ≤ 2147483647 →
      ∃ s', (GameOfLife.seeded 20 40 [(5, 4), (5, 5), (5, 6)]).update = some s' ∧
        (GameOfLife.mk (GameOfLife.seeded 20 40 [(5, 4), (5, 5), (5, 6)]).data
          (fun _ _ => true)).update = some s')) :=
  ⟨rfl, update_ignores_next 20 40 (GameOfLife.seeded 20 40 [(5, 4), (5, 5), (5, 6)])
    (GameOfLife.mk (GameOfLife.seeded 20 40 [(5, 4), (5, 5), (5, 6)]).data (fun _ _ => true)) rfl⟩

/-! ## Translation on the torus (claim C20) -/

theorem toNat_emod_cast (n : Nat) (hn : 0 < n) (x : Int) :
    (((x % (n : Int)).toNat : Nat) : Int) = x % (n : Int) := by
  have h1 := Int.emod_nonneg x (show (n : Int) ≠ 0 by omega)
  omega

theorem torus_shift {H W : Nat} (g : Grid H W) (a b x y : Int) :
    (g.shift a b).torus x y = g.torus (x + a) (y + b) := by
  unfold Grid.torus
  by_cases h : 0 < H ∧ 0 < W
  · rw [dif_pos h, dif_pos h]
    unfold Grid.shift Grid.torus
    rw [dif_pos h]
    congr 1
    · apply Fin.ext
      simp only
      rw [toNat_emod_cast H h.1, Int.emod_add_emod]
    · apply Fin.ext
      simp only
      rw [toNat_emod_cast W h.2, Int.emod_add_emod]
  · rw [dif_neg h, dif_neg h]

theorem torus_emod {H W : Nat} (g : Grid H W) (x y : Int) :
    g.torus (x % (H : Int)) (y % (W : Int)) = g.torus x y := by
  unfold Grid.torus
  by_cases h : 0 < H ∧ 0 < W
  · rw [dif_pos h, dif_pos h]
    congr 1
    · apply Fin.ext
      simp only
      rw [Int.emod_emod_of_dvd x (dvd_refl _)]
    · apply Fin.ext
      simp only
      rw [Int.emod_emod_of_dvd y (dvd_refl _)]
  · rw [dif_neg h, dif_neg h]

theorem torus_add_emod {H W : Nat} (g : Grid H W) (x y d e : Int) :
    g.torus (x % (H : Int) + d) (y % (W : Int) + e) = g.torus (x + d) (y + e) := by
  rw [← torus_emod g (x % (H : Int) + d), ← torus_emod g (x + d), Int.emod_add_emod,
    Int.emod_add_emod]

theorem liveNeighbors_shift {H W : Nat} (g : Grid H W) (a b x y : Int) :
    (g.shift a b).liveNeighbors x y = g.liveNeighbors (x + a) (y + b) := by
  unfold Grid.liveNeighbors
  congr 1
  apply List.filter_congr
  intro d _
  rw [torus_shift, add_right_comm x, add_right_comm y]

theorem liveNeighbors_emod {H W : Nat} (g : Grid H W) (x y : Int) :
    g.liveNeighbors (x % (H : Int)) (y % (W : Int)) = g.liveNeighbors x y := by
  unfold Grid.liveNeighbors
  congr 1
  apply List.filter_congr
  intro d _
  rw [torus_add_emod]

/-- C20, on the grids whose dimensions the `int32_t` loop counters reach
(`H, W ≤ 2147483647`): for every shift `(a, b)` and every grid `g`, `update()`
returns on `g` and on the translated grid, and the current buffer after
`update()` on the translated grid is the translation of the current buffer
after `update()` on `g`. -/
theorem update_commutes_with_shift (H W : Nat) (hH : H ≤ 2147483647) (hW : W ≤ 2147483647)
    (a b : Int) (s t : GameOfLife H W) (hst : t.data = s.data.shift a b) :
    ∃ s' t' : GameOfLife H W, s.update = some s' ∧ t.update = some t' ∧
      t'.data = s'.data.shift a b := by
  refine ⟨_, _, update_eq (int32_bound hH) (int32_bound hW) s,
    update_eq (int32_bound hH) (int32_bound hW) t, ?_⟩
  funext i j
  have hH0 : 0 < H := i.pos
  have hW0 : 0 < W := j.pos
  show Grid.rule (t.data i j) (t.data.liveNeighbors (i.val : Int) (j.val : Int))
    = Grid.torus (fun i j => Grid.rule (s.data i j)
        (s.data.liveNeighbors (i.val : Int) (j.val : Int))) ((i.val : Int) + a) ((j.val : Int) + b)
  rw [hst, liveNeighbors_shift]
  unfold Grid.torus
  rw [dif_pos ⟨hH0, hW0⟩]
  simp only [toNat_emod_cast H hH0, toNat_emod_cast W hW0, liveNeighbors_emod]
  congr 1
  unfold Grid.shift Grid.torus
  rw [dif_pos ⟨hH0, hW0⟩]

/-- C20 on the blinker `(5,4), (5,5), (5,6)` of the 20 x 40 grid, translated by
`(-3, 7)`. -/
theorem update_commutes_with_shift_witness :
    (20 ≤ 2147483647 ∧ 40 ≤ 2147483647) ∧
    ∃ s' t' : GameOfLife 20 40,
      (GameOfLife.seeded 20 40 [(5, 4), (5, 5), (5, 6)]).update = some s' ∧
      (GameOfLife.mk ((GameOfLife.seeded 20 40 [(5, 4), (5, 5), (5, 6)]).data.shift (-3) 7)
        (fun _ _ => false)).update = some t' ∧
      t'.data = s'.data.shift (-3) 7 :=
  ⟨by decide, update_commutes_with_shift 20 40 (by decide) (by decide) (-3) 7
    (GameOfLife.seeded 20 40 [(5, 4), (5, 5), (5, 6)])
    (GameOfLife.mk ((GameOfLife.seeded 20 40 [(5, 4), (5, 5), (5, 6)]).data.shift (-3) 7)
      (fun _ _ => false)) rfl⟩

/-- C20 as stated fails on a grid of `2^31` rows: `update()` has no result on
the grid, nor on the grid translated by `(1, 0)`, the row counter overflowing
after row `2^31 - 1`. -/
theorem update_commutes_with_shift_no_result :
    tallAlive.update = none ∧
    (GameOfLife.mk (tallAlive.data.shift 1 0) tallAlive.next).update = none :=
  ⟨rfl, rfl⟩

/-! ## Rendering (claims C12, C13) -/

theorem foldlM_append_each {α : Type} (f : Nat → α) (l : List Nat) (out : List α) :
    l.foldlM (fun (o : List α) (i : Nat) => some (o ++ [f i])) out = some (out ++ l.map f) := by
  induction l generalizing out with
  | nil => simp
  | cons k l ih =>
    rw [List.foldlM_cons]
    simp only [Option.bind_eq_bind, Option.some_bind]
    rw [ih]
    simp

theorem render_dashes (W : Nat) (out : List Char) :
    forUInt32 W (fun _ o => some (o ++ ['-'])) out = some (out ++ List.replicate W '-') := by
  unfold forUInt32
  rw [foldlM_append_each (fun _ => '-')]
  simp

theorem render_cell_eq {H W : Nat} (s : GameOfLife H W) (r : Fin H) (c : Fin W)
    (out : List Char) :
    s.render_cell r.val c.val out = some (out ++ [if s.data r c then '*' else ' ']) := by
  simp only [GameOfLife.render_cell, Grid.get?_fin, Option.bind_eq_bind, Option.some_bind,
    GameOfLife.ALIVE, GameOfLife.EMPTY]

/-- The characters the inner loop of `render()` writes for the cells of a row. -/
theorem render_cells {H W : Nat} (s : GameOfLife H W) (r : Fin H) (l : List Nat)
    (hl : ∀ k ∈ l, k < W) (out : List Char) :
    l.foldlM (fun (o : List Char) (c : Nat) => s.render_cell r.val c o) out
      = some (out ++ l.map (fun c =>
          if h : c < W then (if s.data r ⟨c, h⟩ then '*' else ' ') else ' ')) := by
  induction l generalizing out with
  | nil => simp
  | cons k l ih =>
    have hk : k < W := hl k (List.mem_cons_self k l)
    have hl2 : ∀ m ∈ l, m < W := fun m hm => hl m (List.mem_cons_of_mem k hm)
    rw [List.foldlM_cons, render_cell_eq s r ⟨k, hk⟩]
    simp only [Option.bind_eq_bind, Option.some_bind]
    rw [ih hl2]
    simp [hk]

theorem map_range_dite {α : Type} (n : Nat) (f : Fin n → α) (d : α) :
    (List.range n).map (fun c => if h : c < n then f ⟨c, h⟩ else d) = List.ofFn f := by
  apply List.ext_getElem
  · simp
  · intro i h1 h2
    simp only [List.length_map, List.length_range] at h1
    simp [h1]

theorem render_line_eq {H W : Nat} (s : GameOfLife H W) (r : Fin H) (out : List Char) :
    s.render_line r.val out = some (out ++ (bodyRow s.data r ++ ['\n'])) := by
  unfold GameOfLife.render_line forUInt32
  simp only []
  rw [render_cells s r (List.range W) (fun k hk => List.mem_range.mp hk),
    map_range_dite W (fun c => if s.data r c then '*' else ' ') ' ']
  simp [bodyRow]

theorem render_lines {H W : Nat} (s : GameOfLife H W) (l : List Nat) (hl : ∀ k ∈ l, k < H)
    (out : List Char) :
    l.foldlM (fun (o : List Char) (r : Nat) => s.render_line r o) out
      = some (out ++ (l.map (fun r =>
          if h : r < H then bodyRow s.data ⟨r, h⟩ ++ ['\n'] else [])).flatten) := by
  induction l generalizing out with
  | nil => simp
  | cons k l ih =>
    have hk : k < H := hl k (List.mem_cons_self k l)
    have hl2 : ∀ m ∈ l, m < H := fun m hm => hl m (List.mem_cons_of_mem k hm)
    rw [List.foldlM_cons, render_line_eq s ⟨k, hk⟩]
    simp only [Option.bind_eq_bind, Option.some_bind]
    rw [ih hl2]
    simp [hk]

/-- Closed form of `render()`. -/
theorem render_eq {H W : Nat} (s : GameOfLife H W) (cout : List Char) :
    s.render cout = some (cout ++ newlineTerminated (frameLines s.data), s) := by
  have e := render_lines s (List.range H) (fun k hk => List.mem_range.mp hk)
  have e2 := map_range_dite H (fun r => bodyRow s.data r ++ ['\n']) []
  rw [e2] at e
  unfold GameOfLife.render
  simp only [render_dashes, Option.bind_eq_bind, Option.some_bind]
  unfold forUInt32
  rw [e]
  simp [newlineTerminated, frameLines, borderRow, List.ofFn_eq_map, List.map_map,
    Function.comp_def]

theorem bodyRow_no_newline {H W : Nat} (g : Grid H W) (r : Fin H) : '\n' ∉ bodyRow g r := by
  unfold bodyRow
  simp only [List.mem_cons, List.mem_append, List.mem_ofFn, List.mem_singleton,
    List.not_mem_nil, or_false, not_or]
  refine ⟨by decide, ?_, by decide⟩
  rintro ⟨c, hc⟩
  simp only at hc
  by_cases h : g r c = true
  · rw [if_pos h] at hc; exact absurd hc (by decide)
  · rw [if_neg h] at hc; exact absurd hc (by decide)

theorem borderRow_no_newline (W : Nat) : '\n' ∉ borderRow W := by
  unfold borderRow
  simp only [List.mem_cons, List.mem_append, List.mem_replicate, List.mem_singleton,
    List.not_mem_nil, or_false, not_or]
  refine ⟨by decide, ?_, by decide⟩
  rintro ⟨_, h⟩
  exact absurd h (by decide)

/-- C12: for every `H`, `W` and every state, `render()` returns, the text it
writes is `H + 2` lines, each followed by a newline and none containing one; the
first and the last line are `x`, then `W` dashes, then `x` (`W + 2` characters);
line `r + 1` is `|`, then `W` characters, the `c`-th being `*` if the cell
`(r, c)` of the current buffer is alive and a space otherwise, then `|`; both
buffers are unchanged. -/
theorem render_frame (H W : Nat) (s : GameOfLife H W) (cout : List Char) :
    s.render cout = some (cout ++ newlineTerminated (frameLines s.data), s) ∧
    (frameLines s.data).length = H + 2 ∧
    (∀ l ∈ frameLines s.data, '\n' ∉ l) ∧
    (frameLines s.data)[0]? = some ('x' :: (List.replicate W '-' ++ ['x'])) ∧
    (frameLines s.data)[H + 1]? = some ('x' :: (List.replicate W '-' ++ ['x'])) ∧
    ('x' :: (List.replicate W '-' ++ ['x'])).length = W + 2 ∧
    (∀ r : Fin H, ∃ cells : List Char,
      (frameLines s.data)[r.val + 1]? = some ('|' :: (cells ++ ['|'])) ∧
      cells.length = W ∧ ∀ c : Fin W, cells[c.val]? = some (if s.data r c then '*' else ' ')) := by
  refine ⟨render_eq s cout, ?_, ?_, ?_, ?_, ?_, ?_⟩
  · simp [frameLines]
  · intro l hl
    simp only [frameLines, List.mem_cons, List.mem_append, List.mem_ofFn,
      List.mem_singleton, List.not_mem_nil, or_false] at hl
    rcases hl with h | ⟨r, h⟩ | h
    · rw [h]; exact borderRow_no_newline W
    · rw [← h]; exact bodyRow_no_newline s.data r
    · rw [h]; exact borderRow_no_newline W
  · simp [frameLines, borderRow]
  · simp [frameLines, borderRow, List.getElem?_append_right]
  · simp
  · intro r
    refine ⟨List.ofFn (fun c : Fin W => if s.data r c then '*' else ' '), ?_, ?_, ?_⟩
    · simp [frameLines, bodyRow, List.getElem?_append_left, List.getElem?_ofFn]
    · simp
    · intro c
      simp [List.getElem?_ofFn]

theorem frameLines_all_dead (H W : Nat) :
    frameLines (H := H) (W := W) (fun _ _ => false)
      = borderRow W :: (List.replicate H (blankRow W) ++ [borderRow W]) := by
  have e : ∀ r : Fin H, bodyRow (W := W) (fun _ _ => false) r = blankRow W := by
    intro r
    simp [bodyRow, blankRow, List.ofFn_const]
  simp only [frameLines, e, List.ofFn_const]

theorem newlineTerminated_frame_length (b row : List Char) (n : Nat) :
    (newlineTerminated (b :: (List.replicate n row ++ [b]))).length
      = 2 * (b.length + 1) + n * (row.length + 1) := by
  induction n with
  | zero => simp [newlineTerminated]; omega
  | succ n ih =>
    simp only [newlineTerminated, List.replicate_succ, List.cons_append, List.map_cons,
      List.flatten_cons, List.length_append, List.length_cons, List.length_nil] at ih ⊢
    have e3 : (n + 1) * (row.length + 1) = n * (row.length + 1) + (row.length + 1) := by ring
    omega

/-- C13, with `H` body rows: rendering a cleared `H x W` grid writes a frame
whose two border rows are `x`, `W` dashes, `x` (length `W + 2`) and whose `H`
body rows each hold exactly `W` interior characters between two bars, all of
them spaces. -/
theorem render_cleared (H W : Nat) (s : GameOfLife H W) (cout : List Char) :
    s.clear.render cout
      = some (cout ++ newlineTerminated
          (('x' :: (List.replicate W '-' ++ ['x'])) ::
            (List.replicate H ('|' :: (List.replicate W ' ' ++ ['|'])) ++
              [('x' :: (List.replicate W '-' ++ ['x']))])), s.clear) ∧
    ('x' :: (List.replicate W '-' ++ ['x'])).length = W + 2 ∧
    (List.replicate H ('|' :: (List.replicate W ' ' ++ ['|']))).length = H ∧
    (List.replicate W ' ').length = W := by
  refine ⟨?_, by simp, by simp, by simp⟩
  have e := render_eq s.clear cout
  have e2 : s.clear.data = fun _ _ => false := rfl
  rw [e2, frameLines_all_dead] at e
  exact e

/-- C13 as stated fails on the cleared 20 x 40 grid: the frame written has 20
body rows between its border rows, not 40. -/
theorem render_cleared_has_H_body_rows :
    (GameOfLife.seeded 20 40 []).clear.render []
      = some (newlineTerminated
          (borderRow 40 :: (List.replicate 20 (blankRow 40) ++ [borderRow 40])),
          (GameOfLife.seeded 20 40 []).clear) ∧
    (GameOfLife.seeded 20 40 []).clear.render []
      ≠ some (newlineTerminated
          (borderRow 40 :: (List.replicate 40 (blankRow 40) ++ [borderRow 40])),
          (GameOfLife.seeded 20 40 []).clear) := by
  have e := render_eq (GameOfLife.seeded 20 40 []).clear []
  have e2 : (GameOfLife.seeded 20 40 []).clear.data = fun _ _ => false := rfl
  rw [e2, frameLines_all_dead, List.nil_append] at e
  refine ⟨e, ?_⟩
  rw [e]
  intro h
  simp only [Option.some.injEq, Prod.mk.injEq, and_true] at h
  have h2 := congrArg List.length h
  rw [newlineTerminated_frame_length, newlineTerminated_frame_length] at h2
  omega

/-! ## Loading a pattern (claims C14, C15) -/

theorem foldlM_loadLine_cons (H W : Nat) (path : String) (g : CellGroup) (line : List Char)
    (lines : List (List Char)) :
    (line :: lines).foldlM (loadLine H W path) g
      = match loadLine H W path g line with
        | Except.error e => Except.error e
        | Except.ok g1 => lines.foldlM (loadLine H W path) g1 := by
  rw [List.foldlM_cons]
  cases loadLine H W path g line <;> rfl

/-- A line on which the body of the loop throws, whatever the group so far,
makes the whole loop throw. -/
theorem foldlM_loadLine_error (H W : Nat) (path : String) (lines : List (List Char))
    (line : List Char) (hmem : line ∈ lines)
    (hbad : ∀ g, ∃ e, loadLine H W path g line = Except.error e) (g : CellGroup) :
    ∃ e, lines.foldlM (loadLine H W path) g = Except.error e := by
  induction lines generalizing g with
  | nil => exact absurd hmem (List.not_mem_nil line)
  | cons l ls ih =>
    rw [foldlM_loadLine_cons]
    cases h : loadLine H W path g l with
    | error e => exact ⟨e, rfl⟩
    | ok g1 =>
      rcases List.mem_cons.mp hmem with h1 | h1
      · obtain ⟨e, he⟩ := hbad g
        rw [h1, h] at he
        exact absurd he (by simp)
      · exact ih h1 g1

theorem loadLine_error_of_parse (H W : Nat) (path : String) (line : List Char)
    (hne : line ≠ []) (hparse : parseRowCol line = none) (g : CellGroup) :
    ∃ e, loadLine H W path g line = Except.error e := by
  unfold loadLine
  rw [if_neg hne, hparse]
  exact ⟨_, rfl⟩

theorem parseRowCol_nil : parseRowCol [] = none := by decide

theorem loadLine_error_of_bounds (H W : Nat) (path : String) (line : List Char)
    (row col : Nat) (hparse : parseRowCol line = some (row, col)) (hb : H ≤ row ∨ W ≤ col)
    (g : CellGroup) :
    ∃ e, loadLine H W path g line = Except.error e := by
  have hne : line ≠ [] := by
    intro h
    rw [h, parseRowCol_nil] at hparse
    exact absurd hparse (by simp)
  unfold loadLine
  rw [if_neg hne, hparse]
  simp only
  by_cases h1 : H ≤ row
  · rw [if_pos h1]; exact ⟨_, rfl⟩
  · rw [if_neg h1]
    have h2 : W ≤ col := by
      rcases hb with h | h
      · exact absurd h h1
      · exact h
    rw [if_pos h2]; exact ⟨_, rfl⟩

/-- C14: `build_cell_group_from_file<H, W>` throws, returning no group,
whenever the file cannot be opened, or some non-empty line of the file does not
begin with two unsigned integers that `iss >> row >> col` can extract, or some
line parses to a row `≥ H` or a column `≥ W`. On the 20 x 40 grid a file with the
line `25 5` is rejected with the row-bound error, a file with the line `abc 3`
with the read-failure error, and a path that cannot be opened with the open
error. -/
theorem load_fails (H W : Nat) (fs : FileSystem) (path : String)
    (hbad : fs path = none ∨
      (∃ content line, fs path = some content ∧ line ∈ fileLines content ∧ line ≠ [] ∧
        parseRowCol line = none) ∨
      (∃ content line row col, fs path = some content ∧ line ∈ fileLines content ∧
        parseRowCol line = some (row, col) ∧ (H ≤ row ∨ W ≤ col))) :
    (∃ e, build_cell_group_from_file H W fs path = Except.error e) ∧
    build_cell_group_from_file 20 40 (oneFile "25 5\n") "pattern.txt"
      = Except.error ⟨ExceptionKind.runtime_error,
          "build_cell_group_from_file: row number should be less than: 20"⟩ ∧
    build_cell_group_from_file 20 40 (oneFile "abc 3\n") "pattern.txt"
      = Except.error ⟨ExceptionKind.runtime_error,
          "build_cell_group_from_file: file read failed: pattern.txt"⟩ ∧
    build_cell_group_from_file 20 40 (oneFile "5 5\n") "missing.txt"
      = Except.error ⟨ExceptionKind.invalid_argument,
          "build_cell_group_from_file: cannot open file: missing.txt"⟩ := by
  refine ⟨?_, rfl, rfl, rfl⟩
  rcases hbad with h | ⟨content, line, h, hmem, hne, hparse⟩ |
    ⟨content, line, row, col, h, hmem, hparse, hb⟩
  · unfold build_cell_group_from_file
    rw [h]
    exact ⟨_, rfl⟩
  · unfold build_cell_group_from_file
    rw [h]
    exact foldlM_loadLine_error H W path _ line hmem
      (loadLine_error_of_parse H W path line hne hparse) []
  · unfold build_cell_group_from_file
    rw [h]
    exact foldlM_loadLine_error H W path _ line hmem
      (loadLine_error_of_bounds H W path line row col hparse hb) []

/-- C14 on a file of the 20 x 40 grid whose second line is `abc 3`. -/
theorem load_fails_witness :
    (∃ e, build_cell_group_from_file 20 40 (oneFile "5 5\nabc 3\n6 6\n") "pattern.txt"
      = Except.error e) ∧
    build_cell_group_from_file 20 40 (oneFile "25 5\n") "pattern.txt"
      = Except.error ⟨ExceptionKind.runtime_error,
          "build_cell_group_from_file: row number should be less than: 20"⟩ ∧
    build_cell_group_from_file 20 40 (oneFile "abc 3\n") "pattern.txt"
      = Except.error ⟨ExceptionKind.runtime_error,
          "build_cell_group_from_file: file read failed: pattern.txt"⟩ ∧
    build_cell_group_from_file 20 40 (oneFile "5 5\n") "missing.txt"
      = Except.error ⟨ExceptionKind.invalid_argument,
          "build_cell_group_from_file: cannot open file: missing.txt"⟩ :=
  load_fails 20 40 (oneFile "5 5\nabc 3\n6 6\n") "pattern.txt"
    (Or.inr (Or.inl ⟨"5 5\nabc 3\n6 6\n".toList, "abc 3".toList, rfl, by decide, by decide,
      by decide⟩))

theorem toInt32_of_lt (n : Nat) (h : n < 2147483648) : toInt32 n = (n : Int) := by
  unfold toInt32
  have e : n % 4294967296 = n := Nat.mod_eq_of_lt (by omega)
  rw [e, if_pos h]

/-- The groups the loop of the loader can end with. -/
theorem foldlM_loadLine_ok (H W : Nat) (path : String) (hH : H ≤ 2147483648)
    (hW : W ≤ 2147483648) (lines : List (List Char)) (g0 g : CellGroup)
    (hok : lines.foldlM (loadLine H W path) g0 = Except.ok g) :
    ∃ parsed : List (Nat × Nat),
      (lines.filter (fun l => decide (l ≠ []))).map parseRowCol = parsed.map some ∧
      g = g0 ++ parsed.map (fun p => ((p.1 : Int), (p.2 : Int))) ∧
      ∀ p ∈ parsed, p.1 < H ∧ p.2 < W := by
  induction lines generalizing g0 with
  | nil =>
    simp only [List.foldlM_nil, pure, Except.pure, Except.ok.injEq] at hok
    exact ⟨[], rfl, by simp [hok], by simp⟩
  | cons l ls ih =>
    rw [foldlM_loadLine_cons] at hok
    by_cases hl : l = []
    · have e : loadLine H W path g0 l = Except.ok g0 := by
        unfold loadLine; rw [if_pos hl]
      rw [e] at hok
      obtain ⟨parsed, h1, h2, h3⟩ := ih g0 hok
      refine ⟨parsed, ?_, h2, h3⟩
      rw [List.filter_cons_of_neg (by simp [hl])]
      exact h1
    · cases hp : parseRowCol l with
      | none =>
        have e : loadLine H W path g0 l = Except.error ⟨ExceptionKind.runtime_error,
            "build_cell_group_from_file: file read failed: " ++ path⟩ := by
          unfold loadLine; rw [if_neg hl, hp]
        rw [e] at hok
        exact absurd hok (by simp)
      | some rc =>
        obtain ⟨row, col⟩ := rc
        by_cases h1 : H ≤ row
        · have e : loadLine H W path g0 l = Except.error ⟨ExceptionKind.runtime_error,
              "build_cell_group_from_file: row number should be less than: " ++ toString H⟩ := by
            unfold loadLine; rw [if_neg hl, hp]; simp only; rw [if_pos h1]
          rw [e] at hok
          exact absurd hok (by simp)
        · by_cases h2 : W ≤ col
          · have e : loadLine H W path g0 l = Except.error ⟨ExceptionKind.runtime_error,
                "build_cell_group_from_file: column number should be less than: "
                  ++ toString W⟩ := by
              unfold loadLine; rw [if_neg hl, hp]; simp only; rw [if_neg h1, if_pos h2]
            rw [e] at hok
            exact absurd hok (by simp)
          · have e : loadLine H W path g0 l
                = Except.ok (g0 ++ [((row : Int), (col : Int))]) := by
              unfold loadLine; rw [if_neg hl, hp]; simp only; rw [if_neg h1, if_neg h2]
              rw [toInt32_of_lt row (by omega), toInt32_of_lt col (by omega)]
            rw [e] at hok
            obtain ⟨parsed, p1, p2, p3⟩ := ih _ hok
            refine ⟨(row, col) :: parsed, ?_, ?_, ?_⟩
            · rw [List.filter_cons_of_pos (by simp [hl])]
              simp only [List.map_cons, hp, p1]
            · rw [p2]; simp
            · intro p hmem
              rcases List.mem_cons.mp hmem with h | h
              · rw [h]; exact ⟨by omega, by omega⟩
              · exact p3 p h

theorem build_ok_parsed (H W : Nat) (hH : H ≤ 2147483648) (hW : W ≤ 2147483648)
    (fs : FileSystem) (path : String) (group : CellGroup)
    (hok : build_cell_group_from_file H W fs path = Except.ok group) :
    ∃ (content : List Char) (parsed : List (Nat × Nat)),
      fs path = some content ∧
      ((fileLines content).filter (fun l => decide (l ≠ []))).map parseRowCol
        = parsed.map some ∧
      group = parsed.map (fun p => ((p.1 : Int), (p.2 : Int))) ∧
      (∀ p ∈ parsed, p.1 < H ∧ p.2 < W) := by
  unfold build_cell_group_from_file at hok
  cases h : fs path with
  | none =>
    rw [h] at hok
    exact absurd hok (by simp)
  | some content =>
    rw [h] at hok
    obtain ⟨parsed, h1, h2, h3⟩ := foldlM_loadLine_ok H W path hH hW _ [] group hok
    exact ⟨content, parsed, rfl, h1, by simpa using h2, h3⟩

theorem build_ok_inRange (H W : Nat) (hH : H ≤ 2147483648) (hW : W ≤ 2147483648)
    (fs : FileSystem) (path : String) (group : CellGroup)
    (hok : build_cell_group_from_file H W fs path = Except.ok group) :
    ∀ q ∈ group, Grid.inRange H W q.1 q.2 := by
  obtain ⟨content, parsed, _, _, h2, h3⟩ := build_ok_parsed H W hH hW fs path group hok
  intro q hq
  rw [h2] at hq
  obtain ⟨p, hp, rfl⟩ := List.mem_map.mp hq
  have := h3 p hp
  unfold Grid.inRange
  simp only
  omega

/-- C15, for `H, W ≤ 2^31` (the rows and columns that fit the `int32_t` pairs
of a group): whenever `build_cell_group_from_file<H, W>` succeeds, the file was
opened, the returned group holds exactly the pair `(row, col)` parsed from each
non-empty line, in file order, empty lines contributing nothing, and every pair
satisfies `0 ≤ row < H` and `0 ≤ col < W`; hence on the 20 x 40 grid
`set_cell_group` applied to a loaded group is within `set_cell`'s precondition
at every entry and returns. -/
theorem load_ok_group (H W : Nat) (hH : H ≤ 2147483648) (hW : W ≤ 2147483648)
    (fs : FileSystem) (path : String) (group : CellGroup)
    (hok : build_cell_group_from_file H W fs path = Except.ok group) :
    (∃ (content : List Char) (parsed : List (Nat × Nat)),
      fs path = some content ∧
      ((fileLines content).filter (fun l => decide (l ≠ []))).map parseRowCol
        = parsed.map some ∧
      group = parsed.map (fun p => ((p.1 : Int), (p.2 : Int)))) ∧
    (∀ q ∈ group, (0 ≤ q.1 ∧ q.1 < (H : Int)) ∧ (0 ≤ q.2 ∧ q.2 < (W : Int))) ∧
    (∀ (fs2 : FileSystem) (path2 : String) (group2 : CellGroup) (s : GameOfLife 20 40),
      build_cell_group_from_file 20 40 fs2 path2 = Except.ok group2 →
      (∀ q ∈ group2, Grid.inRange 20 40 q.1 q.2) ∧
      ∃ s', s.set_cell_group group2 true = some s') := by
  obtain ⟨content, parsed, h0, h1, h2, _⟩ := build_ok_parsed H W hH hW fs path group hok
  refine ⟨⟨content, parsed, h0, h1, h2⟩, build_ok_inRange H W hH hW fs path group hok, ?_⟩
  intro fs2 path2 group2 s hok2
  have hr := build_ok_inRange 20 40 (by decide) (by decide) fs2 path2 group2 hok2
  exact ⟨hr, _, set_cell_group_eq group2 true hr s⟩

/-- C15 on the file `5 4`, `5 5`, an empty line, `5 6` of the 20 x 40 grid. -/
theorem load_ok_group_witness :
    (20 ≤ 2147483648 ∧ 40 ≤ 2147483648 ∧
      build_cell_group_from_file 20 40 (oneFile "5 4\n5 5\n\n5 6\n") "pattern.txt"
        = Except.ok [(5, 4), (5, 5), (5, 6)]) ∧
    ((∃ (content : List Char) (parsed : List (Nat × Nat)),
      oneFile "5 4\n5 5\n\n5 6\n" "pattern.txt" = some content ∧
      ((fileLines content).filter (fun l => decide (l ≠ []))).map parseRowCol
        = parsed.map some ∧
      [((5 : Int), (4 : Int)), (5, 5), (5, 6)] = parsed.map (fun p => ((p.1 : Int), (p.2 : Int)))) ∧
    (∀ q ∈ [((5 : Int), (4 : Int)), (5, 5), (5, 6)],
      (0 ≤ q.1 ∧ q.1 < ((20 : Nat) : Int)) ∧ (0 ≤ q.2 ∧ q.2 < ((40 : Nat) : Int))) ∧
    (∀ (fs2 : FileSystem) (path2 : String) (group2 : CellGroup) (s : GameOfLife 20 40),
      build_cell_group_from_file 20 40 fs2 path2 = Except.ok group2 →
      (∀ q ∈ group2, Grid.inRange 20 40 q.1 q.2) ∧
      ∃ s', s.set_cell_group group2 true = some s')) :=
  ⟨⟨by decide, by decide, rfl⟩,
    load_ok_group 20 40 (by decide) (by decide) (oneFile "5 4\n5 5\n\n5 6\n") "pattern.txt"
      [(5, 4), (5, 5), (5, 6)] rfl⟩

/-- C15 as stated fails for a grid of `2^31 + 1` rows: the line
`2147483648 0` passes both bound checks, the load succeeds, and the pair stored
is `(-2147483648, 0)`, whose row is negative. -/
theorem load_ok_negative_row :
    build_cell_group_from_file 2147483649 1 (oneFile "2147483648 0\n") "pattern.txt"
      = Except.ok [(-2147483648, 0)] ∧
    ¬ (0 ≤ ((-2147483648 : Int), (0 : Int)).1) :=
  ⟨rfl, by decide⟩

/-! ## The entry point (claim C16) -/

/-- C16: `main` returns exit status 1 if and only if the argument count is not
2, and it does so having written the usage message to the error stream and
without constructing an engine; when the argument count is 2 and the load
throws an exception `e`, `main` writes `error, ` followed by the message of `e`
and a newline to the error stream, does not enter `run()`, and returns exit
status 0; when the load succeeds, `main` is inside `run()` with the seeded
engine. -/
theorem main_exit_status (fs : FileSystem) (uninit : GameOfLife 20 40) (argv0 : String)
    (args : List String) :
    ((∃ cerr gol, Cli.main fs uninit argv0 args = some (MainOutcome.returned 1 cerr gol)) ↔
      (args.length : Int) + 1 ≠ 2) ∧
    ((args.length : Int) + 1 ≠ 2 →
      Cli.main fs uninit argv0 args
        = some (MainOutcome.returned 1 ("game_of_life usage: " ++ argv0 ++ " <file_path>\n")
            none)) ∧
    (∀ path e, args = [path] → build_cell_group_from_file 20 40 fs path = Except.error e →
      Cli.main fs uninit argv0 args
        = some (MainOutcome.returned 0 ("error, " ++ e.what ++ "\n") (some uninit.construct))) ∧
    (∀ path group, args = [path] → build_cell_group_from_file 20 40 fs path = Except.ok group →
      ∃ seeded, uninit.construct.set_cell_group group true = some seeded ∧
        Cli.main fs uninit argv0 args = some (MainOutcome.running "" seeded)) := by
  have husage : (args.length : Int) + 1 ≠ 2 →
      Cli.main fs uninit argv0 args
        = some (MainOutcome.returned 1 ("game_of_life usage: " ++ argv0 ++ " <file_path>\n")
            none) := by
    intro h
    unfold Cli.main
    simp only [if_pos h]
  have herr : ∀ path e, args = [path] →
      build_cell_group_from_file 20 40 fs path = Except.error e →
      Cli.main fs uninit argv0 args
        = some (MainOutcome.returned 0 ("error, " ++ e.what ++ "\n")
            (some uninit.construct)) := by
    intro path e hargs hb
    subst hargs
    unfold Cli.main
    simp only [List.length_singleton, Nat.cast_one, List.head?_cons, hb]
    rfl
  have hok : ∀ path group, args = [path] →
      build_cell_group_from_file 20 40 fs path = Except.ok group →
      ∃ seeded, uninit.construct.set_cell_group group true = some seeded ∧
        Cli.main fs uninit argv0 args = some (MainOutcome.running "" seeded) := by
    intro path group hargs hb
    subst hargs
    have hr := build_ok_inRange 20 40 (by decide) (by decide) fs path group hb
    have hs := set_cell_group_eq group true hr uninit.construct
    refine ⟨_, hs, ?_⟩
    unfold Cli.main
    simp only [List.length_singleton, Nat.cast_one, List.head?_cons, hb, hs]
    rfl
  refine ⟨⟨?_, fun h => ⟨_, _, husage h⟩⟩, husage, herr, hok⟩
  rintro ⟨cerr, gol, h⟩ h2
  obtain ⟨path, hargs⟩ : ∃ path, args = [path] := by
    match args, h2 with
    | [p], _ => exact ⟨p, rfl⟩
    | [], h2 => simp at h2
    | _ :: _ :: _, h2 =>
      simp only [List.length_cons, Nat.cast_add, Nat.cast_one] at h2
      omega
  cases hb : build_cell_group_from_file 20 40 fs path with
  | error e =>
    rw [herr path e hargs hb] at h
    simp at h
  | ok group =>
    obtain ⟨seeded, _, hm⟩ := hok path group hargs hb
    rw [hm] at h
    simp at h

/-- C16 on a call with no argument after the program name, and on a call whose
pattern file has the line `abc 3`. -/
theorem main_exit_status_witness :
    Cli.main (oneFile "abc 3\n") (GameOfLife.seeded 20 40 []) "game_of_life" []
      = some (MainOutcome.returned 1 "game_of_life usage: game_of_life <file_path>\n" none) ∧
    Cli.main (oneFile "abc 3\n") (GameOfLife.seeded 20 40 []) "game_of_life" ["pattern.txt"]
      = some (MainOutcome.returned 0
          "error, build_cell_group_from_file: file read failed: pattern.txt\n"
          (some (GameOfLife.seeded 20 40 []).construct)) :=
  ⟨(main_exit_status (oneFile "abc 3\n") (GameOfLife.seeded 20 40 []) "game_of_life" []).2.1
      (by decide),
    (main_exit_status (oneFile "abc 3\n") (GameOfLife.seeded 20 40 []) "game_of_life"
        ["pattern.txt"]).2.2.1
      "pattern.txt" ⟨ExceptionKind.runtime_error,
        "build_cell_group_from_file: file read failed: pattern.txt"⟩ rfl rfl⟩

/-! ## Distinct neighbours (claim C19) -/

theorem emod_pred_cases (n k : Nat) (hk : k < n) :
    ((k : Int) + -1) % (n : Int) = if k = 0 then (n : Int) - 1 else (k : Int) - 1 := by
  by_cases h : k = 0
  · rw [if_pos h, h, ← Int.add_emod_self, Int.emod_eq_of_lt (by omega) (by omega)]
    omega
  · rw [if_neg h, Int.emod_eq_of_lt (by omega) (by omega)]
    omega

theorem emod_succ_cases (n k : Nat) (hk : k < n) :
    ((k : Int) + 1) % (n : Int) = if k + 1 = n then 0 else (k : Int) + 1 := by
  by_cases h : k + 1 = n
  · rw [if_pos h]
    have e : (k : Int) + 1 = (n : Int) := by omega
    rw [e, Int.emod_self]
  · rw [if_neg h, Int.emod_eq_of_lt (by omega) (by omega)]

theorem emod_zero_cases (n k : Nat) (hk : k < n) :
    ((k : Int) + 0) % (n : Int) = (k : Int) := by
  rw [Int.add_zero, Int.emod_eq_of_lt (by omega) (by omega)]

theorem torusCoord_list (H W : Nat) (r c : Int) :
    Grid.offsets.map (Grid.torusCoord H W r c)
      = [((r + -1) % (H : Int), (c + -1) % (W : Int)), ((r + -1) % (H : Int), (c + 0) % (W : Int)),
         ((r + -1) % (H : Int), (c + 1) % (W : Int)), ((r + 0) % (H : Int), (c + -1) % (W : Int)),
         ((r + 0) % (H : Int), (c + 1) % (W : Int)), ((r + 1) % (H : Int), (c + -1) % (W : Int)),
         ((r + 1) % (H : Int), (c + 0) % (W : Int)), ((r + 1) % (H : Int), (c + 1) % (W : Int))] :=
  rfl

/-- On a grid with at least three rows and three columns the eight wrapped
neighbours of a cell are distinct and none is the cell. -/
theorem torusCoord_nodup (H W : Nat) (hH : 3 ≤ H) (hW : 3 ≤ W) (r : Fin H) (c : Fin W) :
    (Grid.offsets.map (Grid.torusCoord H W (r.val : Int) (c.val : Int))).Nodup ∧
    ((r.val : Int), (c.val : Int)) ∉
      Grid.offsets.map (Grid.torusCoord H W (r.val : Int) (c.val : Int)) := by
  rw [torusCoord_list]
  have h1 := emod_pred_cases H r.val r.isLt
  have h2 := emod_zero_cases H r.val r.isLt
  have h3 := emod_succ_cases H r.val r.isLt
  have h4 := emod_pred_cases W c.val c.isLt
  have h5 := emod_zero_cases W c.val c.isLt
  have h6 := emod_succ_cases W c.val c.isLt
  have hr := r.isLt
  have hc := c.isLt
  generalize ((r.val : Int) + -1) % (H : Int) = am at h1 ⊢
  generalize ((r.val : Int) + 0) % (H : Int) = a0 at h2 ⊢
  generalize ((r.val : Int) + 1) % (H : Int) = ap at h3 ⊢
  generalize ((c.val : Int) + -1) % (W : Int) = bm at h4 ⊢
  generalize ((c.val : Int) + 0) % (W : Int) = b0 at h5 ⊢
  generalize ((c.val : Int) + 1) % (W : Int) = bp at h6 ⊢
  have d1 : am ≠ a0 := by split at h1 <;> omega
  have d2 : a0 ≠ ap := by split at h3 <;> omega
  have d3 : am ≠ ap := by split at h1 <;> split at h3 <;> omega
  have d4 : bm ≠ b0 := by split at h4 <;> omega
  have d5 : b0 ≠ bp := by split at h6 <;> omega
  have d6 : bm ≠ bp := by split at h4 <;> split at h6 <;> omega
  clear h1 h3 h4 h6
  subst h2 h5
  simp only [List.nodup_cons, List.mem_cons, List.mem_singleton, List.not_mem_nil,
    List.nodup_nil, Prod.mk.injEq, or_false, not_or, not_and, and_true]
  repeat' apply And.intro
  all_goals first | exact not_false | (intros; omega)

/-- On a grid with fewer than three rows or fewer than three columns the wrapped
neighbours of the cell `(0, 0)` are not distinct. -/
theorem torusCoord_not_nodup (H W : Nat) (hH0 : 0 < H) (hW0 : 0 < W)
    (hsmall : ¬ (3 ≤ H ∧ 3 ≤ W)) :
    ¬ (Grid.offsets.map (Grid.torusCoord H W ((0 : Nat) : Int) ((0 : Nat) : Int))).Nodup := by
  rw [torusCoord_list]
  have h1 := emod_pred_cases H 0 hH0
  have h3 := emod_succ_cases H 0 hH0
  have h4 := emod_pred_cases W 0 hW0
  have h6 := emod_succ_cases W 0 hW0
  generalize (((0 : Nat) : Int) + -1) % (H : Int) = am at h1 ⊢
  generalize (((0 : Nat) : Int) + 0) % (H : Int) = a0
  generalize (((0 : Nat) : Int) + 1) % (H : Int) = ap at h3 ⊢
  generalize (((0 : Nat) : Int) + -1) % (W : Int) = bm at h4 ⊢
  generalize (((0 : Nat) : Int) + 0) % (W : Int) = b0
  generalize (((0 : Nat) : Int) + 1) % (W : Int) = bp at h6 ⊢
  rw [if_pos rfl] at h1 h4
  by_cases hH : 3 ≤ H
  · have hW : ¬ 3 ≤ W := fun h => hsmall ⟨hH, h⟩
    have e : bm = bp := by split at h6 <;> omega
    subst e
    intro hn
    simp only [List.nodup_cons, List.mem_cons, Prod.mk.injEq, true_and, not_or] at hn
    exact hn.1.2.1 trivial
  · have e : am = ap := by split at h3 <;> omega
    subst e
    intro hn
    simp only [List.nodup_cons, List.mem_cons, Prod.mk.injEq, true_and, and_true, not_or] at hn
    exact hn.1.2.2.2.2.1 trivial

theorem adjacentLive_eq_liveNeighbors {H W : Nat} (g : Grid H W) (r c : Int)
    (hnd : (Grid.offsets.map (Grid.torusCoord H W r c)).Nodup)
    (hself : (r, c) ∉ Grid.offsets.map (Grid.torusCoord H W r c)) :
    g.adjacentLive r c = g.liveNeighbors r c := by
  unfold Grid.adjacentLive Grid.liveNeighbors
  rw [List.Nodup.dedup hnd, List.filter_map, List.length_map]
  congr 1
  apply List.filter_congr
  intro d hd
  have h1 : Grid.torusCoord H W r c d ≠ (r, c) := by
    intro h
    exact hself (List.mem_map.mpr ⟨d, hd, h⟩)
  simp only [Function.comp_apply, h1, ne_eq, not_false_eq_true, decide_True, Bool.true_and]
  exact torus_emod g (r + d.1) (c + d.2)

theorem adjacentLive_lt_eight {H W : Nat} (g : Grid H W) (r c : Int)
    (hbad : ¬ ((Grid.offsets.map (Grid.torusCoord H W r c)).Nodup ∧
      (r, c) ∉ Grid.offsets.map (Grid.torusCoord H W r c))) :
    g.adjacentLive r c < 8 := by
  unfold Grid.adjacentLive
  have hlen : (Grid.offsets.map (Grid.torusCoord H W r c)).length = 8 := rfl
  have hsub := List.dedup_sublist (Grid.offsets.map (Grid.torusCoord H W r c))
  have hle := hsub.length_le
  rw [hlen] at hle
  have hf := List.length_filter_le (fun p => decide (p ≠ (r, c)) && g.torus p.1 p.2)
    ((Grid.offsets.map (Grid.torusCoord H W r c)).dedup)
  by_cases hnd : (Grid.offsets.map (Grid.torusCoord H W r c)).Nodup
  · have hself : (r, c) ∈ Grid.offsets.map (Grid.torusCoord H W r c) := by
      by_contra h
      exact hbad ⟨hnd, h⟩
    have hlt : (((Grid.offsets.map (Grid.torusCoord H W r c)).dedup).filter
        (fun p => decide (p ≠ (r, c)) && g.torus p.1 p.2)).length
        < ((Grid.offsets.map (Grid.torusCoord H W r c)).dedup).length := by
      rw [List.length_filter_lt_length_iff_exists]
      exact ⟨(r, c), List.mem_dedup.mpr hself, by simp⟩
    omega
  · have hne : ((Grid.offsets.map (Grid.torusCoord H W r c)).dedup).length ≠ 8 := by
      intro h
      apply hnd
      have e := hsub.eq_of_length (by rw [h, hlen])
      exact List.dedup_eq_self.mp e
    omega

theorem liveNeighbors_const_true {H W : Nat} (hH : 0 < H) (hW : 0 < W) (r c : Int) :
    Grid.liveNeighbors (H := H) (W := W) (fun _ _ => true) r c = 8 := by
  have e : ∀ x y : Int, Grid.torus (H := H) (W := W) (fun _ _ => true) x y = true := by
    intro x y
    unfold Grid.torus
    rw [dif_pos ⟨hH, hW⟩]
  rw [liveNeighbors_unfold]
  simp only [e]
  rfl

/-- The coordinates `visited` lists are the ones `count_neighbors` reads: the
count is the number of entries of the list that hold a live cell. -/
theorem count_neighbors_visited {H W : Nat} (s : GameOfLife H W) (hH : (H : Int) ≤ INT32_MAX)
    (hW : (W : Int) ≤ INT32_MAX) (r : Fin H) (c : Fin W) :
    ∃ l, GameOfLife.visited H W (r.val : Int) (c.val : Int) = some l ∧
      s.count_neighbors (r.val : Int) (c.val : Int)
        = some ((l.filter (fun p => s.data.get? p.1 p.2 == some true)).length) := by
  refine ⟨_, visited_eq hH hW r c, ?_⟩
  rw [count_neighbors_eq s hH hW r c, List.filter_map, List.length_map]
  unfold Grid.liveNeighbors
  congr 2
  apply List.filter_congr
  intro d _
  simp only [Function.comp_apply, Grid.torusCoord, Grid.get?_emod s.data r.pos c.pos]
  cases s.data.torus ((r.val : Int) + d.1) ((c.val : Int) + d.2) <;> rfl

/-- C19, on the grids with `0 < H, W ≤ 2147483647`: the eight wrapped
coordinates `count_neighbors(r, c)` visits are pairwise distinct and all
different from `(r, c)` for every in-range cell if and only if `H ≥ 3` and
`W ≥ 3`; when `H ≥ 3` and `W ≥ 3`, `count_neighbors` returns the number of
distinct live cells adjacent to `(r, c)`, and otherwise there is a grid and a
cell on which it returns another number; on the 1 x 1 grid with its cell alive,
`count_neighbors(0, 0)` returns 8. -/
theorem neighbours_distinct_iff (H W : Nat) (hH0 : 0 < H) (hW0 : 0 < W) (hH : H ≤ 2147483647)
    (hW : W ≤ 2147483647) :
    ((∀ (r : Fin H) (c : Fin W), ∃ l,
        GameOfLife.visited H W (r.val : Int) (c.val : Int) = some l ∧ l.length = 8 ∧
        l.Nodup ∧ ((r.val : Int), (c.val : Int)) ∉ l) ↔ (3 ≤ H ∧ 3 ≤ W)) ∧
    (∀ (s : GameOfLife H W) (r : Fin H) (c : Fin W), ∃ l,
      GameOfLife.visited H W (r.val : Int) (c.val : Int) = some l ∧
      s.count_neighbors (r.val : Int) (c.val : Int)
        = some ((l.filter (fun p => s.data.get? p.1 p.2 == some true)).length)) ∧
    (3 ≤ H → 3 ≤ W → ∀ (s : GameOfLife H W) (r : Fin H) (c : Fin W),
      s.count_neighbors (r.val : Int) (c.val : Int)
        = some (s.data.adjacentLive (r.val : Int) (c.val : Int))) ∧
    (¬ (3 ≤ H ∧ 3 ≤ W) → ∃ (s : GameOfLife H W) (r : Fin H) (c : Fin W),
      s.count_neighbors (r.val : Int) (c.val : Int)
        ≠ some (s.data.adjacentLive (r.val : Int) (c.val : Int))) ∧
    GameOfLife.count_neighbors (H := 1) (W := 1) ⟨fun _ _ => true, fun _ _ => false⟩ 0 0
      = some 8 := by
  have hH' := int32_bound hH
  have hW' := int32_bound hW
  refine ⟨⟨?_, ?_⟩, ?_, ?_, ?_, by decide⟩
  · intro h
    by_contra hsmall
    obtain ⟨l, hl, _, hnd, _⟩ := h ⟨0, hH0⟩ ⟨0, hW0⟩
    rw [visited_eq hH' hW' ⟨0, hH0⟩ ⟨0, hW0⟩] at hl
    simp only [Option.some.injEq] at hl
    rw [← hl] at hnd
    exact torusCoord_not_nodup H W hH0 hW0 hsmall hnd
  · rintro ⟨h3, w3⟩ r c
    obtain ⟨hnd, hself⟩ := torusCoord_nodup H W h3 w3 r c
    exact ⟨_, visited_eq hH' hW' r c, rfl, hnd, hself⟩
  · intro s r c
    exact count_neighbors_visited s hH' hW' r c
  · intro h3 w3 s r c
    obtain ⟨hnd, hself⟩ := torusCoord_nodup H W h3 w3 r c
    rw [count_neighbors_eq s hH' hW' r c, adjacentLive_eq_liveNeighbors s.data _ _ hnd hself]
  · intro hsmall
    refine ⟨⟨fun _ _ => true, fun _ _ => false⟩, ⟨0, hH0⟩, ⟨0, hW0⟩, ?_⟩
    rw [count_neighbors_eq _ hH' hW' ⟨0, hH0⟩ ⟨0, hW0⟩, liveNeighbors_const_true hH0 hW0]
    have hlt := adjacentLive_lt_eight (H := H) (W := W) (fun _ _ => true)
      ((0 : Nat) : Int) ((0 : Nat) : Int)
      (fun h => torusCoord_not_nodup H W hH0 hW0 hsmall h.1)
    intro h
    simp only [Option.some.injEq] at h
    omega

/-- C19 on the 20 x 40 grid of the program and on the 2 x 2 grid. -/
theorem neighbours_distinct_iff_witness :
    ((3 ≤ 20 ∧ 3 ≤ 40) ∧
      ∀ (s : GameOfLife 20 40) (r : Fin 20) (c : Fin 40),
        s.count_neighbors (r.val : Int) (c.val : Int)
          = some (s.data.adjacentLive (r.val : Int) (c.val : Int))) ∧
    (¬ (3 ≤ 2 ∧ 3 ≤ 2) ∧
      ∃ (s : GameOfLife 2 2) (r : Fin 2) (c : Fin 2),
        s.count_neighbors (r.val : Int) (c.val : Int)
          ≠ some (s.data.adjacentLive (r.val : Int) (c.val : Int))) :=
  ⟨⟨by decide,
      (neighbours_distinct_iff 20 40 (by decide) (by decide) (by decide) (by decide)).2.2.1
        (by decide) (by decide)⟩,
    ⟨by decide,
      (neighbours_distinct_iff 2 2 (by decide) (by decide) (by decide) (by decide)).2.2.2.1
        (by decide)⟩⟩

/-- C19 as stated fails on a grid of `2^32 - 2` rows and three columns: both
dimensions are at least 3, yet the coordinates `count_neighbors(1, 1)` visits
repeat, the rows above and below row 1 both wrapping to row 0 because
`1 + 1 + H` is `0` modulo `2^32`. -/
theorem neighbours_repeat_at_large_height :
    (3 ≤ 4294967294 ∧ 3 ≤ 3) ∧ Grid.inRange 4294967294 3 1 1 ∧
    GameOfLife.visited 4294967294 3 1 1
      = some [(0, 0), (0, 1), (0, 2), (1, 0), (1, 2), (0, 0), (0, 1), (0, 2)] ∧
    ¬ [((0 : Int), (0 : Int)), (0, 1), (0, 2), (1, 0), (1, 2), (0, 0), (0, 1), (0, 2)].Nodup := by
  decide
